import Mathlib

/-!
Verification of the Hue Zigbee binary message codec.

The development shallowly embeds the codec: buffers are `List Nat` of byte
values, JavaScript numbers are `ℚ` (for the color/parameter fields that carry
fractional values) or `Nat` (for fields that are integral), and every fallible
operation returns `Except Err _`.  Error classes follow the throw sites of the
source: out-of-bounds buffer reads (native bounds errors) and the 3-byte check
of the scaled color decoder are `Err.length`; the three explicit gradient
checks are `Err.format _`; the brightness check is `Err.range`; the encoder's
internal length invariant is `Err.internal`.
-/

set_option maxHeartbeats 1000000
set_option maxRecDepth 4000

/-- Truncation toward zero, as JavaScript `Math.trunc` and the integral part
taken by `ToUint8`/`ToUint16` conversions. -/
def jsTrunc (q : ℚ) : ℤ :=
  if 0 ≤ q then ⌊q⌋ else -⌊-q⌋

/-- JavaScript `ToUint8` applied to a (rational-valued) number: truncate toward
zero, then reduce modulo 2^8. -/
def jsU8 (q : ℚ) : Nat :=
  ((jsTrunc q) % 256).toNat

/-- JavaScript `ToUint16` applied to a (rational-valued) number: truncate
toward zero, then reduce modulo 2^16. -/
def jsU16 (q : ℚ) : Nat :=
  ((jsTrunc q) % 65536).toNat

/-- Two little-endian bytes of a 16-bit write (`DataView.setUint16` with
`littleEndian = true`); the value is reduced modulo 2^16 byte-wise. -/
def u16le (v : Nat) : List Nat :=
  [v % 256, v / 256 % 256]

/-- The reasons of the three explicit gradient-block errors in
`HueLightUpdateMessage.fromBytes`. -/
inductive FormatReason : Type where
  /-- `size=... too small, expected at least 4` -/
  | sizeTooSmall : FormatReason
  /-- `size=... from offset=... extends beyond end of data` -/
  | beyondEnd : FormatReason
  /-- `not enough data (... colors would extend ... bytes beyond offset ...)` -/
  | notEnoughData : FormatReason
deriving DecidableEq, Repr

/-- Error classes of the codec (see §7 of the specification). -/
inductive Err : Type where
  /-- Buffer too short for a read (native `DataView` bounds errors, and the
  3-byte check of `HueLightColorXYScaled.fromBytes`). -/
  | length : Err
  /-- Brightness outside 1..254 on encode. -/
  | range : Err
  /-- Structurally inconsistent gradient block on decode. -/
  | format (r : FormatReason) : Err
  /-- The encoder's final offset differed from the precomputed length. -/
  | internal : Err
deriving DecidableEq, Repr

/-- Flag bit for `isOn` (source `Flags.ON_OFF = 1 << 0`). -/
def FLAG_ON_OFF : Nat := 1
/-- Flag bit for `brightness` (source `Flags.BRIGHTNESS = 1 << 1`). -/
def FLAG_BRIGHTNESS : Nat := 2
/-- Flag bit for `colorTemp` (source `Flags.COLOR_MIRED = 1 << 2`). -/
def FLAG_COLOR_MIRED : Nat := 4
/-- Flag bit for `colorXY` (source `Flags.COLOR_XY = 1 << 3`). -/
def FLAG_COLOR_XY : Nat := 8
/-- Flag bit for `transitionTime` (source `Flags.TRANSITION_TIME = 1 << 4`). -/
def FLAG_TRANSITION_TIME : Nat := 16
/-- Flag bit for `effect` (source `Flags.EFFECT = 1 << 5`). -/
def FLAG_EFFECT : Nat := 32
/-- Flag bit for `gradientParams` (source `Flags.GRADIENT_PARAMS = 1 << 6`). -/
def FLAG_GRADIENT_PARAMS : Nat := 64
/-- Flag bit for `effectSpeed` (source `Flags.EFFECT_SPEED = 1 << 7`). -/
def FLAG_EFFECT_SPEED : Nat := 128
/-- Flag bit for `gradient` (source `Flags.GRADIENT_COLORS = 1 << 8`). -/
def FLAG_GRADIENT_COLORS : Nat := 256

/-- Color as two scaled 12-bit integers (source `HueLightColorXYScaled`). -/
structure HueLightColorXYScaled : Type where
  x : Nat
  y : Nat
deriving DecidableEq, Repr

/-- Source `HueLightColorXYScaled.SCALING_MAX_X = 0.7347`. -/
def SCALING_MAX_X : ℚ := 7347 / 10000

/-- Source `HueLightColorXYScaled.SCALING_MAX_Y = 0.8264`. -/
def SCALING_MAX_Y : ℚ := 8264 / 10000

/-- `HueLightColorXYScaled.toBytes`: pack x and y (12 bits each) into 3 bytes.
Source: `[x & 0x0ff, ((x & 0xf00) >> 8) | ((y & 0x00f) << 4), (y & 0xff0) >> 4]`. -/
def HueLightColorXYScaled.toBytes (s : HueLightColorXYScaled) : List Nat :=
  [s.x &&& 0x0ff,
   ((s.x &&& 0xf00) >>> 8) ||| ((s.y &&& 0x00f) <<< 4),
   (s.y &&& 0xff0) >>> 4]

/-- `HueLightColorXYScaled.fromBytes`: unpack 3 bytes, requiring the input to
be exactly 3 bytes long (`Expected 3 bytes, received ...` otherwise). -/
def HueLightColorXYScaled.fromBytes (l : List Nat) : Except Err HueLightColorXYScaled :=
  match l with
  | [a, b, c] => .ok ⟨((b &&& 0x0f) <<< 8) ||| a, (c <<< 4) ||| (b >>> 4)⟩
  | _ => .error .length

/-- Color as XY coordinates in the 0..1 range (source `HueLightColorXY`). -/
structure HueLightColorXY : Type where
  x : ℚ
  y : ℚ
deriving DecidableEq, Repr

/-- `HueLightColorXY.toScaled`: clamp each coordinate divided by its axis
maximum to 0..1, multiply by 0xfff and truncate.  Source:
`Math.trunc(0xfff * Math.max(0, Math.min(this.x / SCALING_MAX_X, 1)))`. -/
def HueLightColorXY.toScaled (c : HueLightColorXY) : HueLightColorXYScaled :=
  ⟨(jsTrunc (0xfff * max 0 (min (c.x / SCALING_MAX_X) 1))).toNat,
   (jsTrunc (0xfff * max 0 (min (c.y / SCALING_MAX_Y) 1))).toNat⟩

/-- `HueLightColorXY.fromScaled`: divide each 12-bit value by 0xfff and
multiply by the axis maximum. -/
def HueLightColorXY.fromScaled (s : HueLightColorXYScaled) : HueLightColorXY :=
  ⟨(s.x : ℚ) / 0xfff * SCALING_MAX_X, (s.y : ℚ) / 0xfff * SCALING_MAX_Y⟩

/-- Color temperature in mireds (source `HueLightColorMired`). -/
structure HueLightColorMired : Type where
  mired : Nat
deriving DecidableEq, Repr

/-- `HueLightColorMired.fromKelvin`: `Math.trunc(1_000_000 / kelvin)`. -/
def HueLightColorMired.fromKelvin (kelvin : Nat) : HueLightColorMired :=
  ⟨1000000 / kelvin⟩

/-- Gradient style byte values (source `HueLightGradientStyle`). -/
def STYLE_LINEAR : Nat := 0x00
/-- Source `HueLightGradientStyle.SCATTERED`. -/
def STYLE_SCATTERED : Nat := 0x02
/-- Source `HueLightGradientStyle.MIRRORED`. -/
def STYLE_MIRRORED : Nat := 0x04

/-- A custom gradient (source `HueLightGradient`); the style is kept as its
raw byte code. -/
structure HueLightGradient : Type where
  style : Nat
  colors : List HueLightColorXY
deriving DecidableEq, Repr

/-- Gradient scale and offset parameters (source `HueLightGradientParams`). -/
structure HueLightGradientParams : Type where
  scale : ℚ
  offset : ℚ
deriving DecidableEq, Repr

/-- The combined light state update message (source `HueLightUpdateMessage`).
The effect is kept as its raw byte code, matching the decoder, which stores
the raw byte even for codes outside the known enumeration. -/
structure HueLightUpdateMessage : Type where
  isOn : Option Bool := none
  brightness : Option Nat := none
  colorTemp : Option HueLightColorMired := none
  colorXY : Option HueLightColorXY := none
  transitionTime : Option Nat := none
  effect : Option Nat := none
  effectSpeed : Option Nat := none
  gradient : Option HueLightGradient := none
  gradientParams : Option HueLightGradientParams := none
deriving DecidableEq, Repr

/-! ## Encoder (`HueLightUpdateMessage.toBytes`)

The source writes sequentially into a preallocated buffer at a running
offset, starting at offset 2, and finally writes the flag word at offset 0.
Since every field writes exactly at the cursor, the body is the concatenation
of the per-field byte segments below, in source write order. -/

/-- Byte segment written for `isOn` (`setUint8(offset, isOn ? 1 : 0)`). -/
def segIsOn : Option Bool → List Nat
  | none => []
  | some v => [if v then 1 else 0]

/-- Byte segment written for `brightness` (the 1..254 range was checked just
before the write, so the byte is the value itself). -/
def segBrightness : Option Nat → List Nat
  | none => []
  | some b => [b]

/-- Byte segment written for `colorTemp` (`setUint16(offset, mired, true)`). -/
def segMired : Option HueLightColorMired → List Nat
  | none => []
  | some ct => u16le ct.mired

/-- Byte segment written for `colorXY`
(`setUint16(offset, x * 0xffff, true); setUint16(offset + 2, y * 0xffff, true)`). -/
def segXY : Option HueLightColorXY → List Nat
  | none => []
  | some c => u16le (jsU16 (c.x * 0xffff)) ++ u16le (jsU16 (c.y * 0xffff))

/-- Byte segment written for `transitionTime`. -/
def segTransition : Option Nat → List Nat
  | none => []
  | some t => u16le t

/-- Byte segment written for `effect` (`setUint8(offset, effect)`). -/
def segEffect : Option Nat → List Nat
  | none => []
  | some e => [e % 256]

/-- Byte segment written for the gradient block: size byte `4 + 3 * count`,
count byte `count << 4`, style byte, two reserved zero bytes, then each
color's scaled 3-byte encoding. -/
def segGradient : Option HueLightGradient → List Nat
  | none => []
  | some g =>
    (4 + 3 * g.colors.length) % 256 ::
    (g.colors.length <<< 4) % 256 ::
    g.style % 256 :: 0 :: 0 ::
    (g.colors.map (fun c => c.toScaled.toBytes)).flatten

/-- Byte segment written for `effectSpeed`. -/
def segSpeed : Option Nat → List Nat
  | none => []
  | some s => [s % 256]

/-- Byte segment written for `gradientParams`
(`setUint8(offset, scale * 8); setUint8(offset + 1, offset * 8)`). -/
def segParams : Option HueLightGradientParams → List Nat
  | none => []
  | some p => [jsU8 (p.scale * 8), jsU8 (p.offset * 8)]

/-- The message body: all field segments in source write order (gradient
colors before effect speed before gradient params). -/
def msgBody (m : HueLightUpdateMessage) : List Nat :=
  segIsOn m.isOn ++ segBrightness m.brightness ++ segMired m.colorTemp ++
  segXY m.colorXY ++ segTransition m.transitionTime ++ segEffect m.effect ++
  segGradient m.gradient ++ segSpeed m.effectSpeed ++ segParams m.gradientParams

/-- The accumulated flag word, one `flags |= ...` per present field, in source
write order. -/
def encFlags (m : HueLightUpdateMessage) : Nat :=
  (if m.isOn.isSome then FLAG_ON_OFF else 0) |||
  (if m.brightness.isSome then FLAG_BRIGHTNESS else 0) |||
  (if m.colorTemp.isSome then FLAG_COLOR_MIRED else 0) |||
  (if m.colorXY.isSome then FLAG_COLOR_XY else 0) |||
  (if m.transitionTime.isSome then FLAG_TRANSITION_TIME else 0) |||
  (if m.effect.isSome then FLAG_EFFECT else 0) |||
  (if m.gradient.isSome then FLAG_GRADIENT_COLORS else 0) |||
  (if m.effectSpeed.isSome then FLAG_EFFECT_SPEED else 0) |||
  (if m.gradientParams.isSome then FLAG_GRADIENT_PARAMS else 0)

/-- The precomputed encoded length (`encodedLength` in the source):
2 flag bytes plus each present field's fixed contribution, the gradient
contributing `5 + 3 * colors.length`. -/
def encodedLength (m : HueLightUpdateMessage) : Nat :=
  2 +
  (if m.isOn.isSome then 1 else 0) +
  (if m.brightness.isSome then 1 else 0) +
  (if m.colorTemp.isSome then 2 else 0) +
  (if m.colorXY.isSome then 4 else 0) +
  (if m.transitionTime.isSome then 2 else 0) +
  (if m.effect.isSome then 1 else 0) +
  (match m.gradient with
   | none => 0
   | some g => 5 + 3 * g.colors.length) +
  (if m.effectSpeed.isSome then 1 else 0) +
  (if m.gradientParams.isSome then 2 else 0)

/-- `true` exactly when the encoder's brightness range check
(`brightness < 1 || brightness > 254`) throws. -/
def brightnessBad : Option Nat → Bool
  | none => false
  | some b => decide (b < 1) || decide (254 < b)

/-- `HueLightUpdateMessage.toBytes`: range-check brightness, write the body,
check the final offset (2 plus the body length) against the precomputed
length, and prepend the little-endian flag word. -/
def HueLightUpdateMessage.toBytes (m : HueLightUpdateMessage) : Except Err (List Nat) :=
  if brightnessBad m.brightness then .error .range
  else if 2 + (msgBody m).length ≠ encodedLength m then .error .internal
  else .ok (u16le (encFlags m) ++ msgBody m)

/-! ## Decoder (`HueLightUpdateMessage.fromBytes`)

The decoder walks a read cursor over the buffer; each flag bit gates one
step.  Each step is its own definition so that its behavior can be analyzed
separately; `fromBytes` chains them in source order. -/

/-- A single byte read (`DataView.getUint8`); reading past the end of the
buffer is a native bounds error. -/
def getU8 (d : List Nat) (i : Nat) : Except Err Nat :=
  if h : i < d.length then .ok d[i] else .error .length

/-- A little-endian 16-bit read (`DataView.getUint16(offset, true)`). -/
def getU16 (d : List Nat) (i : Nat) : Except Err Nat := do
  let a ← getU8 d i
  let b ← getU8 d (i + 1)
  .ok (a + 256 * b)

/-- Decode step for `isOn`: `result.isOn = getUint8(offset) !== 0`. -/
def dOnOff (d : List Nat) (flags : Nat) (st : HueLightUpdateMessage × Nat) :
    Except Err (HueLightUpdateMessage × Nat) :=
  if flags &&& FLAG_ON_OFF ≠ 0 then do
    let v ← getU8 d st.2
    .ok ({ st.1 with isOn := some (v != 0) }, st.2 + 1)
  else .ok st

/-- Decode step for `brightness`. -/
def dBrightness (d : List Nat) (flags : Nat) (st : HueLightUpdateMessage × Nat) :
    Except Err (HueLightUpdateMessage × Nat) :=
  if flags &&& FLAG_BRIGHTNESS ≠ 0 then do
    let v ← getU8 d st.2
    .ok ({ st.1 with brightness := some v }, st.2 + 1)
  else .ok st

/-- Decode step for `colorTemp`. -/
def dMired (d : List Nat) (flags : Nat) (st : HueLightUpdateMessage × Nat) :
    Except Err (HueLightUpdateMessage × Nat) :=
  if flags &&& FLAG_COLOR_MIRED ≠ 0 then do
    let v ← getU16 d st.2
    .ok ({ st.1 with colorTemp := some ⟨v⟩ }, st.2 + 2)
  else .ok st

/-- Decode step for `colorXY`: two 16-bit reads, each divided by 0xffff. -/
def dXY (d : List Nat) (flags : Nat) (st : HueLightUpdateMessage × Nat) :
    Except Err (HueLightUpdateMessage × Nat) :=
  if flags &&& FLAG_COLOR_XY ≠ 0 then do
    let a ← getU16 d st.2
    let b ← getU16 d (st.2 + 2)
    .ok ({ st.1 with colorXY := some ⟨(a : ℚ) / 0xffff, (b : ℚ) / 0xffff⟩ }, st.2 + 4)
  else .ok st

/-- Decode step for `transitionTime`. -/
def dTransition (d : List Nat) (flags : Nat) (st : HueLightUpdateMessage × Nat) :
    Except Err (HueLightUpdateMessage × Nat) :=
  if flags &&& FLAG_TRANSITION_TIME ≠ 0 then do
    let v ← getU16 d st.2
    .ok ({ st.1 with transitionTime := some v }, st.2 + 2)
  else .ok st

/-- Decode step for `effect`: the raw byte is stored. -/
def dEffect (d : List Nat) (flags : Nat) (st : HueLightUpdateMessage × Nat) :
    Except Err (HueLightUpdateMessage × Nat) :=
  if flags &&& FLAG_EFFECT ≠ 0 then do
    let v ← getU8 d st.2
    .ok ({ st.1 with effect := some v }, st.2 + 1)
  else .ok st

/-- Read `count` scaled 3-byte colors starting at `start` (the source's
`for` loop from `colorsStart` to `colorsEnd` in steps of 3, each iteration
passing a 3-byte view to `HueLightColorXYScaled.fromBytes`). -/
def readColors (d : List Nat) : Nat → Nat → Except Err (List HueLightColorXY)
  | _, 0 => .ok []
  | start, n + 1 => do
    let s ← HueLightColorXYScaled.fromBytes ((d.drop start).take 3)
    let rest ← readColors d (start + 3) n
    .ok (HueLightColorXY.fromScaled s :: rest)

/-- Decode step for the gradient block, with its three explicit checks:
`size < 4`, `offset + size + 1 > byteLength`, and
`colorsEnd > offset + size + 1`, where `colorsEnd = offset + 5 + colorCount * 3`
and `colorCount` is the high nibble of the byte after the size byte. -/
def dGradient (d : List Nat) (flags : Nat) (st : HueLightUpdateMessage × Nat) :
    Except Err (HueLightUpdateMessage × Nat) :=
  if flags &&& FLAG_GRADIENT_COLORS ≠ 0 then do
    let size ← getU8 d st.2
    if size < 4 then .error (.format .sizeTooSmall)
    else if st.2 + size + 1 > d.length then .error (.format .beyondEnd)
    else do
      let countByte ← getU8 d (st.2 + 1)
      let colorCount := countByte >>> 4
      let styleByte ← getU8 d (st.2 + 2)
      if st.2 + 5 + colorCount * 3 > st.2 + size + 1 then .error (.format .notEnoughData)
      else do
        let colors ← readColors d (st.2 + 5) colorCount
        .ok ({ st.1 with gradient := some ⟨styleByte, colors⟩ }, st.2 + size + 1)
  else .ok st

/-- Decode step for `effectSpeed`. -/
def dSpeed (d : List Nat) (flags : Nat) (st : HueLightUpdateMessage × Nat) :
    Except Err (HueLightUpdateMessage × Nat) :=
  if flags &&& FLAG_EFFECT_SPEED ≠ 0 then do
    let v ← getU8 d st.2
    .ok ({ st.1 with effectSpeed := some v }, st.2 + 1)
  else .ok st

/-- Decode step for `gradientParams`: two bytes, each divided by 8. -/
def dParams (d : List Nat) (flags : Nat) (st : HueLightUpdateMessage × Nat) :
    Except Err (HueLightUpdateMessage × Nat) :=
  if flags &&& FLAG_GRADIENT_PARAMS ≠ 0 then do
    let a ← getU8 d st.2
    let b ← getU8 d (st.2 + 1)
    .ok ({ st.1 with gradientParams := some ⟨(a : ℚ) / 8, (b : ℚ) / 8⟩ }, st.2 + 2)
  else .ok st

/-- `HueLightUpdateMessage.fromBytes`: read the little-endian flag word at
offset 0, then run the flag-gated steps in source order (note gradient
colors, bit 8, come before effect speed, bit 7, and gradient params, bit 6). -/
def HueLightUpdateMessage.fromBytes (d : List Nat) : Except Err HueLightUpdateMessage := do
  let flags ← getU16 d 0
  let st1 ← dOnOff d flags ({}, 2)
  let st2 ← dBrightness d flags st1
  let st3 ← dMired d flags st2
  let st4 ← dXY d flags st3
  let st5 ← dTransition d flags st4
  let st6 ← dEffect d flags st5
  let st7 ← dGradient d flags st6
  let st8 ← dSpeed d flags st7
  let st9 ← dParams d flags st8
  .ok st9.1

/-! ## Auxiliary definitions for the statements -/

/-- Decidable equality for `Except` results. -/
instance {ε α : Type} [DecidableEq ε] [DecidableEq α] : DecidableEq (Except ε α) := fun x y =>
  match x, y with
  | .ok a, .ok b => decidable_of_iff (a = b) (by simp)
  | .error a, .error b => decidable_of_iff (a = b) (by simp)
  | .ok _, .error _ => isFalse (by simp)
  | .error _, .ok _ => isFalse (by simp)

/-- A predicate holding of the value of an optional field when it is set
(and trivially when it is unset). -/
def OptAll {α : Type} (p : α → Prop) : Option α → Prop
  | none => True
  | some a => p a

instance {α : Type} {p : α → Prop} [DecidablePred p] : ∀ o : Option α, Decidable (OptAll p o)
  | none => .isTrue trivial
  | some a => decidable_of_iff (p a) (by simp [OptAll])

/-- Relate two optional fields: both unset, or both set with related values. -/
def OptRel {α : Type} (r : α → α → Prop) : Option α → Option α → Prop
  | none, none => True
  | some a, some b => r a b
  | _, _ => False

/-- Both coordinates recovered within one quantization step of the
corresponding axis (claimed tolerance `1/4095 × axis maximum`). -/
def xyClose (c c' : HueLightColorXY) : Prop :=
  |c'.x - c.x| ≤ SCALING_MAX_X / 4095 ∧ |c'.y - c.y| ≤ SCALING_MAX_Y / 4095

/-- Gradient recovered: bit-exact style, same color count, and every color
recovered within one quantization step per axis. -/
def gradClose (g g' : HueLightGradient) : Prop :=
  g'.style = g.style ∧ g'.colors.length = g.colors.length ∧
    List.Forall₂ xyClose g.colors g'.colors

/-- All fields in the ranges documented by the data model (§3), with the
amendment that each gradient color coordinate is at most its axis maximum
(larger coordinates are clamped by `toScaled` and cannot be recovered). -/
def WFmsg (m : HueLightUpdateMessage) : Prop :=
  OptAll (fun b => 1 ≤ b ∧ b ≤ 254) m.brightness ∧
  OptAll (fun ct => ct.mired ≤ 65535) m.colorTemp ∧
  OptAll (fun c => 0 ≤ c.x ∧ c.x ≤ 1 ∧ 0 ≤ c.y ∧ c.y ≤ 1) m.colorXY ∧
  OptAll (fun t => t ≤ 65535) m.transitionTime ∧
  OptAll (fun e => e ≤ 255) m.effect ∧
  OptAll (fun s => s ≤ 255) m.effectSpeed ∧
  OptAll (fun g => g.style ≤ 255 ∧ g.colors.length ≤ 15 ∧
    ∀ c ∈ g.colors,
      0 ≤ c.x ∧ c.x ≤ SCALING_MAX_X ∧ 0 ≤ c.y ∧ c.y ≤ SCALING_MAX_Y) m.gradient ∧
  OptAll (fun p => (∃ k : Fin 256, p.scale = (k : ℚ) / 8) ∧
    (∃ k : Fin 256, p.offset = (k : ℚ) / 8)) m.gradientParams

instance (m : HueLightUpdateMessage) : Decidable (WFmsg m) := by
  unfold WFmsg
  infer_instance

/-- The value a normalized `colorXY` coordinate decodes back to: stored as a
16-bit fraction of 0xffff and divided by 0xffff again. -/
def quantXY (c : HueLightColorXY) : HueLightColorXY :=
  ⟨(jsU16 (c.x * 0xffff) : ℚ) / 0xffff, (jsU16 (c.y * 0xffff) : ℚ) / 0xffff⟩

/-- The value a gradient color decodes back to: scaled to 12 bits and back. -/
def quantColor (c : HueLightColorXY) : HueLightColorXY :=
  HueLightColorXY.fromScaled c.toScaled

/-- The gradient a gradient decodes back to. -/
def quantGradient (g : HueLightGradient) : HueLightGradient :=
  ⟨g.style, g.colors.map quantColor⟩

/-- The message recovered by decoding an encoded message: every field as
set, with the two color fields quantized. -/
def decodedMsg (m : HueLightUpdateMessage) : HueLightUpdateMessage :=
  { isOn := m.isOn, brightness := m.brightness, colorTemp := m.colorTemp,
    colorXY := m.colorXY.map quantXY, transitionTime := m.transitionTime,
    effect := m.effect, effectSpeed := m.effectSpeed,
    gradient := m.gradient.map quantGradient,
    gradientParams := m.gradientParams }

/-- First color of the §8 gradient test vector: scaled-space `(0x123, 0xABC)`. -/
def exampleColor1 : HueLightColorXY := HueLightColorXY.fromScaled ⟨0x123, 0xABC⟩

/-- Second color of the §8 gradient test vector: scaled-space `(0x789, 0xDEF)`. -/
def exampleColor2 : HueLightColorXY := HueLightColorXY.fromScaled ⟨0x789, 0xDEF⟩

/-- The §8 gradient test message: style SCATTERED, the two colors above, and
`gradientParams {scale: 25.5, offset: 27.625}`. -/
def exampleGradientMessage : HueLightUpdateMessage :=
  { gradient := some ⟨STYLE_SCATTERED, [exampleColor1, exampleColor2]⟩,
    gradientParams := some ⟨51 / 2, 221 / 8⟩ }

/-- The 15 expected bytes `40 01 0a 20 02 00 00 23 c1 ab 89 f7 de cc dd`. -/
def exampleGradientBytes : List Nat :=
  [0x40, 0x01, 0x0a, 0x20, 0x02, 0x00, 0x00, 0x23, 0xc1, 0xab, 0x89, 0xf7, 0xde, 0xcc, 0xdd]

/-- A message whose single gradient color has coordinate `x = 1`: a legal
normalized coordinate that exceeds `SCALING_MAX_X`, so encoding clamps it. -/
def clampedGradientMessage : HueLightUpdateMessage :=
  { gradient := some ⟨STYLE_LINEAR, [⟨1, 0⟩]⟩ }

/-- A full message exercising all nine fields, used to instantiate the
round-trip theorem. -/
def fullMessage : HueLightUpdateMessage :=
  { isOn := some true,
    brightness := some 128,
    colorTemp := some ⟨300⟩,
    colorXY := some ⟨1 / 2, 1 / 4⟩,
    transitionTime := some 1000,
    effect := some 0x0a,
    effectSpeed := some 7,
    gradient := some ⟨STYLE_SCATTERED, [⟨1 / 10, 1 / 10⟩]⟩,
    gradientParams := some ⟨51 / 2, 221 / 8⟩ }

/-! ## Bit-manipulation helpers -/

/-- Masking with 255 is reduction modulo 256. -/
theorem and_255_eq_mod (x : Nat) : x &&& 255 = x % 256 := by
  have h : (255 : Nat) = 2 ^ 8 - 1 := by norm_num
  rw [h, Nat.and_pow_two_sub_one_eq_mod]

/-- Masking with 15 is reduction modulo 16. -/
theorem and_15_eq_mod (x : Nat) : x &&& 15 = x % 16 := by
  have h : (15 : Nat) = 2 ^ 4 - 1 := by norm_num
  rw [h, Nat.and_pow_two_sub_one_eq_mod]

/-- Masking with a shifted mask and then shifting down equals shifting down
and masking. -/
theorem and_shiftLeft_shiftRight (x m k : Nat) :
    (x &&& (m <<< k)) >>> k = (x >>> k) &&& m := by
  apply Nat.eq_of_testBit_eq
  intro i
  simp only [Nat.testBit_shiftRight, Nat.testBit_and, Nat.testBit_shiftLeft]
  have h : k + i - k = i := by omega
  simp [h]

/-- A shifted value ored with a small value is their sum. -/
theorem shiftLeft_or_eq_add (a b k : Nat) (hb : b < 2 ^ k) :
    (a <<< k) ||| b = a * 2 ^ k + b := by
  rw [Nat.shiftLeft_eq, Nat.mul_comm a (2 ^ k), ← Nat.mul_add_lt_is_or hb a]

/-- The scaled 3-byte pack followed by the unpack restores both 12-bit
values: core of the scaled-color round trip. -/
theorem scaled_pack_unpack (x y : Nat) (hx : x ≤ 4095) (hy : y ≤ 4095) :
    HueLightColorXYScaled.fromBytes (HueLightColorXYScaled.toBytes ⟨x, y⟩) =
      .ok ⟨x, y⟩ := by
  have h1 : (0xf00 : Nat) = 15 <<< 8 := by decide
  have h2 : (0xff0 : Nat) = 255 <<< 4 := by decide
  have hA : x &&& 0x0ff = x % 256 := and_255_eq_mod x
  have hBx : (x &&& 0xf00) >>> 8 = x / 256 % 16 := by
    rw [h1, and_shiftLeft_shiftRight, and_15_eq_mod, Nat.shiftRight_eq_div_pow]
  have hC : (y &&& 0xff0) >>> 4 = y / 16 % 256 := by
    rw [h2, and_shiftLeft_shiftRight, and_255_eq_mod, Nat.shiftRight_eq_div_pow]
  have hB : ((x &&& 0xf00) >>> 8) ||| ((y &&& 0x00f) <<< 4) =
      y % 16 * 16 + x / 256 % 16 := by
    rw [hBx, and_15_eq_mod, Nat.or_comm,
      shiftLeft_or_eq_add _ _ _ (by omega : x / 256 % 16 < 2 ^ 4)]
    norm_num
  simp only [HueLightColorXYScaled.toBytes, HueLightColorXYScaled.fromBytes,
    hA, hB, hC]
  have hcomp1 : (((y % 16 * 16 + x / 256 % 16) &&& 15) <<< 8) ||| (x % 256) = x := by
    rw [and_15_eq_mod]
    have hnib : (y % 16 * 16 + x / 256 % 16) % 16 = x / 256 % 16 := by omega
    rw [hnib, shiftLeft_or_eq_add _ _ _ (by omega : x % 256 < 2 ^ 8)]
    have h28 : (2 : Nat) ^ 8 = 256 := by norm_num
    rw [h28]
    omega
  have hcomp2 : ((y / 16 % 256) <<< 4) ||| ((y % 16 * 16 + x / 256 % 16) >>> 4) = y := by
    rw [Nat.shiftRight_eq_div_pow]
    have hdiv : (y % 16 * 16 + x / 256 % 16) / 2 ^ 4 = y % 16 := by
      have h24 : (2 : Nat) ^ 4 = 16 := by norm_num
      rw [h24]; omega
    rw [hdiv, shiftLeft_or_eq_add _ _ _ (by omega : y % 16 < 2 ^ 4)]
    have h24 : (2 : Nat) ^ 4 = 16 := by norm_num
    rw [h24]
    omega
  rw [hcomp1, hcomp2]

/-! ## Quantization lemmas -/

/-- `jsTrunc` on a nonnegative rational is the floor. -/
theorem jsTrunc_of_nonneg {q : ℚ} (h : 0 ≤ q) : jsTrunc q = ⌊q⌋ := by
  simp [jsTrunc, h]

/-- The truncated clamped scaling used by `toScaled` yields a 12-bit value. -/
theorem trunc_clamp_le (q : ℚ) : (jsTrunc (4095 * max 0 (min q 1))).toNat ≤ 4095 := by
  have hnn : (0 : ℚ) ≤ 4095 * max 0 (min q 1) :=
    mul_nonneg (by norm_num) (le_max_left 0 _)
  rw [jsTrunc_of_nonneg hnn, Int.toNat_le]
  have h1 : max (0 : ℚ) (min q 1) ≤ 1 := max_le (by norm_num) (min_le_right _ _)
  have h2 : (4095 : ℚ) * max 0 (min q 1) ≤ 4095 := by nlinarith
  calc ⌊(4095 : ℚ) * max 0 (min q 1)⌋ ≤ ⌊(4095 : ℚ)⌋ := Int.floor_le_floor h2
  _ = 4095 := by norm_num

/-- The scaled coordinates produced by `toScaled` are 12-bit values. -/
theorem toScaled_le (c : HueLightColorXY) :
    c.toScaled.x ≤ 4095 ∧ c.toScaled.y ≤ 4095 := by
  simp only [HueLightColorXY.toScaled]
  exact ⟨trunc_clamp_le _, trunc_clamp_le _⟩

/-- Quantize-and-recover bound for one gradient-color axis: when the
coordinate lies within `[0, M]`, the recovered value falls at most `M / 4095`
below it and never above it. -/
theorem quant_axis (v M : ℚ) (hM : 0 < M) (h0 : 0 ≤ v) (h1 : v ≤ M) :
    ((jsTrunc (4095 * max 0 (min (v / M) 1))).toNat : ℚ) / 4095 * M ≤ v ∧
    v - M / 4095 ≤ ((jsTrunc (4095 * max 0 (min (v / M) 1))).toNat : ℚ) / 4095 * M := by
  have hdiv0 : 0 ≤ v / M := div_nonneg h0 hM.le
  have hdiv1 : v / M ≤ 1 := (div_le_one hM).mpr h1
  have hclamp : max 0 (min (v / M) 1) = v / M := by
    rw [min_eq_left hdiv1, max_eq_right hdiv0]
  rw [hclamp, jsTrunc_of_nonneg (by positivity)]
  have hfl : (0 : ℤ) ≤ ⌊(4095 : ℚ) * (v / M)⌋ := Int.floor_nonneg.mpr (by positivity)
  have hcast : ((⌊(4095 : ℚ) * (v / M)⌋.toNat : ℚ)) = (⌊(4095 : ℚ) * (v / M)⌋ : ℚ) := by
    exact_mod_cast Int.toNat_of_nonneg hfl
  rw [hcast]
  have hle : (⌊(4095 : ℚ) * (v / M)⌋ : ℚ) ≤ 4095 * (v / M) := Int.floor_le _
  have hgt : 4095 * (v / M) - 1 < (⌊(4095 : ℚ) * (v / M)⌋ : ℚ) := Int.sub_one_lt_floor _
  have hvm : v / M * M = v := div_mul_cancel₀ v hM.ne'
  have hFle : (⌊(4095 : ℚ) * (v / M)⌋ : ℚ) * M ≤ 4095 * v := by
    calc (⌊(4095 : ℚ) * (v / M)⌋ : ℚ) * M ≤ 4095 * (v / M) * M :=
          mul_le_mul_of_nonneg_right hle hM.le
    _ = 4095 * v := by rw [mul_assoc, hvm]
  have hFgt : 4095 * v - M < (⌊(4095 : ℚ) * (v / M)⌋ : ℚ) * M := by
    calc 4095 * v - M = (4095 * (v / M) - 1) * M := by
          rw [sub_mul, one_mul, mul_assoc, hvm]
    _ < _ := mul_lt_mul_of_pos_right hgt hM
  constructor
  · rw [div_mul_eq_mul_div, div_le_iff₀ (by norm_num : (0 : ℚ) < 4095)]
    linarith
  · rw [div_mul_eq_mul_div, le_div_iff₀ (by norm_num : (0 : ℚ) < 4095)]
    have hexp : (v - M / 4095) * 4095 = 4095 * v - M := by ring
    rw [hexp]
    linarith

/-- Quantize-and-recover bound for one normalized `colorXY` axis: the
recovered value falls at most `1 / 65535` below the original and never above
it, and the stored 16-bit value is in range. -/
theorem quant_xy_axis (v : ℚ) (h0 : 0 ≤ v) (h1 : v ≤ 1) :
    (jsU16 (v * 0xffff) : ℚ) / 0xffff ≤ v ∧
    v - 1 / 65535 ≤ (jsU16 (v * 0xffff) : ℚ) / 0xffff ∧
    jsU16 (v * 0xffff) ≤ 65535 := by
  have hnn : (0 : ℚ) ≤ v * 0xffff := by positivity
  have hfl : (0 : ℤ) ≤ ⌊v * (0xffff : ℚ)⌋ := Int.floor_nonneg.mpr hnn
  have hub : ⌊v * (0xffff : ℚ)⌋ ≤ 65535 := by
    calc ⌊v * (0xffff : ℚ)⌋ ≤ ⌊(65535 : ℚ)⌋ := Int.floor_le_floor (by nlinarith)
    _ = 65535 := by norm_num
  have hmod : jsU16 (v * 0xffff) = ⌊v * (0xffff : ℚ)⌋.toNat := by
    unfold jsU16
    rw [jsTrunc_of_nonneg hnn, Int.emod_eq_of_lt hfl (by omega)]
  have hcast : ((⌊v * (0xffff : ℚ)⌋.toNat : ℚ)) = (⌊v * (0xffff : ℚ)⌋ : ℚ) := by
    exact_mod_cast Int.toNat_of_nonneg hfl
  have hle : (⌊v * (0xffff : ℚ)⌋ : ℚ) ≤ v * 0xffff := Int.floor_le _
  have hgt : v * 0xffff - 1 < (⌊v * (0xffff : ℚ)⌋ : ℚ) := Int.sub_one_lt_floor _
  refine ⟨?_, ?_, ?_⟩
  · rw [hmod, hcast, div_le_iff₀ (by norm_num : (0 : ℚ) < 0xffff)]
    linarith
  · rw [hmod, hcast, le_div_iff₀ (by norm_num : (0 : ℚ) < 0xffff)]
    have hexp : (v - 1 / 65535) * (0xffff : ℚ) = v * 0xffff - 1 := by norm_num; ring
    rw [hexp]
    linarith
  · rw [hmod]
    omega

/-- The stored byte of a gradient parameter on the 1/8 grid is recovered
exactly. -/
theorem jsU8_eighth (k : Nat) (hk : k < 256) : jsU8 ((k : ℚ) / 8 * 8) = k := by
  have hq : ((k : ℚ) / 8 * 8) = (k : ℚ) := by
    field_simp
  rw [hq]
  unfold jsU8
  rw [jsTrunc_of_nonneg (by positivity), Int.floor_natCast,
    Int.emod_eq_of_lt (by omega) (by omega)]
  omega

/-! ## `Except` and buffer-read helpers -/

/-- Reduction of a successful bind. -/
@[simp] theorem ok_bind {ε α β : Type} (a : α) (f : α → Except ε β) :
    (Except.ok a >>= f) = f a := rfl

/-- Reduction of a failed bind. -/
@[simp] theorem error_bind {ε α β : Type} (e : ε) (f : α → Except ε β) :
    ((Except.error e : Except ε α) >>= f) = .error e := rfl

/-- Inversion of a successful bind. -/
theorem bind_eq_ok_iff {ε α β : Type} {x : Except ε α} {f : α → Except ε β} {b : β} :
    (x >>= f) = .ok b ↔ ∃ a, x = .ok a ∧ f a = .ok b := by
  cases x with
  | ok a => simp
  | error e => simp

/-- A successful byte read means the index is in bounds and yields that byte. -/
theorem getU8_eq_ok {d : List Nat} {i v : Nat} (h : getU8 d i = .ok v) :
    i < d.length ∧ d.getD i 0 = v := by
  unfold getU8 at h
  split at h
  · next hlt => exact ⟨hlt, by simpa [List.getD_eq_getElem?_getD, List.getElem?_eq_getElem hlt] using (by injection h : _ = v)⟩
  · exact absurd h (by simp)

/-- Reading at the length of a prefix returns the following byte. -/
theorem getU8_at (pre : List Nat) (b : Nat) (post : List Nat) :
    getU8 (pre ++ b :: post) pre.length = .ok b := by
  have hlt : pre.length < (pre ++ b :: post).length := by simp
  unfold getU8
  rw [dif_pos hlt]
  congr 1
  rw [List.getElem_append_right (le_refl pre.length)]
  simp

/-- Reading one past the length of a prefix returns the second byte after. -/
theorem getU8_at1 (pre : List Nat) (a b : Nat) (post : List Nat) :
    getU8 (pre ++ a :: b :: post) (pre.length + 1) = .ok b := by
  have h := getU8_at (pre ++ [a]) b post
  simpa using h

/-- Reading two past the length of a prefix returns the third byte after. -/
theorem getU8_at2 (pre : List Nat) (a b c : Nat) (post : List Nat) :
    getU8 (pre ++ a :: b :: c :: post) (pre.length + 2) = .ok c := by
  have h := getU8_at (pre ++ [a, b]) c post
  simpa using h

/-- Reading three past the length of a prefix returns the fourth byte after. -/
theorem getU8_at3 (pre : List Nat) (a b c e : Nat) (post : List Nat) :
    getU8 (pre ++ a :: b :: c :: e :: post) (pre.length + 3) = .ok e := by
  have h := getU8_at (pre ++ [a, b, c]) e post
  simpa using h

/-- A 16-bit read at the length of a prefix recombines the two bytes. -/
theorem getU16_at (pre : List Nat) (a b : Nat) (post : List Nat) :
    getU16 (pre ++ a :: b :: post) pre.length = .ok (a + 256 * b) := by
  simp [getU16, getU8_at, getU8_at1]

/-- A successful byte read is unchanged by appending to the buffer. -/
theorem getU8_append {d : List Nat} {i v : Nat} (t : List Nat)
    (h : getU8 d i = .ok v) : getU8 (d ++ t) i = .ok v := by
  obtain ⟨hlt, _⟩ := getU8_eq_ok h
  unfold getU8 at h ⊢
  rw [dif_pos (by simp; omega)]
  rw [dif_pos hlt] at h
  rwa [List.getElem_append_left hlt]

/-- A successful 16-bit read is unchanged by appending to the buffer. -/
theorem getU16_append {d : List Nat} {i v : Nat} (t : List Nat)
    (h : getU16 d i = .ok v) : getU16 (d ++ t) i = .ok v := by
  unfold getU16 at h ⊢
  rcases hx : getU8 d i with e | a
  · rw [hx] at h; simp at h
  · rw [hx] at h
    rcases hy : getU8 d (i + 1) with e | b
    · rw [hy] at h; simp at h
    · rw [hy] at h
      rw [getU8_append t hx, getU8_append t hy]
      exact h

/-! ## Encoder length accounting -/

/-- Each scaled color contributes exactly 3 bytes to the gradient block. -/
theorem flatten_colors_length (l : List HueLightColorXY) :
    ((l.map fun c => c.toScaled.toBytes).flatten).length = 3 * l.length := by
  induction l with
  | nil => simp
  | cons c tl ih =>
    simp only [List.map_cons, List.flatten_cons, List.length_append, List.length_cons]
    rw [ih]
    simp only [HueLightColorXYScaled.toBytes, List.length_cons, List.length_nil]
    omega

/-- Length of the `isOn` segment. -/
theorem segIsOn_length (o : Option Bool) :
    (segIsOn o).length = if o.isSome then 1 else 0 := by
  cases o <;> simp [segIsOn]

/-- Length of the `brightness` segment. -/
theorem segBrightness_length (o : Option Nat) :
    (segBrightness o).length = if o.isSome then 1 else 0 := by
  cases o <;> simp [segBrightness]

/-- Length of the `colorTemp` segment. -/
theorem segMired_length (o : Option HueLightColorMired) :
    (segMired o).length = if o.isSome then 2 else 0 := by
  cases o <;> simp [segMired, u16le]

/-- Length of the `colorXY` segment. -/
theorem segXY_length (o : Option HueLightColorXY) :
    (segXY o).length = if o.isSome then 4 else 0 := by
  cases o <;> simp [segXY, u16le]

/-- Length of the `transitionTime` segment. -/
theorem segTransition_length (o : Option Nat) :
    (segTransition o).length = if o.isSome then 2 else 0 := by
  cases o <;> simp [segTransition, u16le]

/-- Length of the `effect` segment. -/
theorem segEffect_length (o : Option Nat) :
    (segEffect o).length = if o.isSome then 1 else 0 := by
  cases o <;> simp [segEffect]

/-- Length of the gradient segment: the size-prefixed block is
`5 + 3 × colorCount` bytes. -/
theorem segGradient_length (o : Option HueLightGradient) :
    (segGradient o).length =
      match o with
      | none => 0
      | some g => 5 + 3 * g.colors.length := by
  cases o with
  | none => simp [segGradient]
  | some g =>
    simp only [segGradient, List.length_cons, flatten_colors_length]
    omega

/-- Length of the `effectSpeed` segment. -/
theorem segSpeed_length (o : Option Nat) :
    (segSpeed o).length = if o.isSome then 1 else 0 := by
  cases o <;> simp [segSpeed]

/-- Length of the `gradientParams` segment. -/
theorem segParams_length (o : Option HueLightGradientParams) :
    (segParams o).length = if o.isSome then 2 else 0 := by
  cases o <;> simp [segParams]

/-- The body is exactly `encodedLength` minus the two flag bytes: the write
cursor, which starts at 2 and advances by each segment's length, ends at the
precomputed length. -/
theorem msgBody_length (m : HueLightUpdateMessage) :
    2 + (msgBody m).length = encodedLength m := by
  simp only [msgBody, encodedLength, List.length_append, segIsOn_length,
    segBrightness_length, segMired_length, segXY_length, segTransition_length,
    segEffect_length, segGradient_length, segSpeed_length, segParams_length]
  ring

/-- When the brightness check passes, `toBytes` succeeds with the flag word
followed by the body. -/
theorem toBytes_eq (m : HueLightUpdateMessage) (h : brightnessBad m.brightness = false) :
    m.toBytes = .ok (u16le (encFlags m) ++ msgBody m) := by
  have h2 : ¬(2 + (msgBody m).length ≠ encodedLength m) :=
    fun hne => hne (msgBody_length m)
  simp [HueLightUpdateMessage.toBytes, h, h2]

/-! ## Claim C7: scaled color pack/unpack -/

/-- C7: `HueLightColorXYScaled.toBytes` packs x and y into exactly 3 bytes
(laid out `[x low 8][x high 4 | y low 4 << 4][y high 8]`, which is its
definition), `fromBytes` recovers every `x, y ≤ 4095` exactly, and
`fromBytes` fails with a length error on any input that is not exactly 3
bytes long. -/
theorem scaled_roundTrip_and_length :
    (∀ x y : Nat, x ≤ 4095 → y ≤ 4095 →
      (HueLightColorXYScaled.toBytes ⟨x, y⟩).length = 3 ∧
      HueLightColorXYScaled.fromBytes (HueLightColorXYScaled.toBytes ⟨x, y⟩) =
        .ok ⟨x, y⟩) ∧
    (∀ l : List Nat, l.length ≠ 3 →
      HueLightColorXYScaled.fromBytes l = .error .length) := by
  constructor
  · intro x y hx hy
    exact ⟨by simp [HueLightColorXYScaled.toBytes], scaled_pack_unpack x y hx hy⟩
  · intro l hl
    rcases l with _ | ⟨a, _ | ⟨b, _ | ⟨c, _ | ⟨e, tl⟩⟩⟩⟩ <;>
      simp [HueLightColorXYScaled.fromBytes] at hl ⊢

/-- Witness for C7 at concrete inputs. -/
theorem scaled_roundTrip_and_length_witness :
    HueLightColorXYScaled.fromBytes (HueLightColorXYScaled.toBytes ⟨4095, 291⟩) =
      .ok ⟨4095, 291⟩ ∧
    HueLightColorXYScaled.fromBytes [1, 2] = .error .length :=
  ⟨(scaled_roundTrip_and_length.1 4095 291 (by decide) (by decide)).2,
   scaled_roundTrip_and_length.2 [1, 2] (by decide)⟩

/-! ## Claim C8: encoder offset invariant -/

/-- C8: for every message, the encoder's final write cursor (2 flag bytes
plus the body) lands exactly on the precomputed `encodedLength`, so whenever
the brightness range check passes, `toBytes` succeeds — the
internal-consistency branch is unreachable and `toBytes` never returns
`Err.internal` for any caller-supplied message. -/
theorem toBytes_offset_invariant (m : HueLightUpdateMessage) :
    2 + (msgBody m).length = encodedLength m ∧
    (brightnessBad m.brightness = false →
      m.toBytes = .ok (u16le (encFlags m) ++ msgBody m)) ∧
    m.toBytes ≠ .error .internal := by
  refine ⟨msgBody_length m, toBytes_eq m, ?_⟩
  rcases hb : brightnessBad m.brightness with _ | _
  · rw [toBytes_eq m hb]
    simp
  · unfold HueLightUpdateMessage.toBytes
    rw [hb]
    simp

/-- Witness for C8 on a concrete message. -/
theorem toBytes_offset_invariant_witness :
    HueLightUpdateMessage.toBytes { brightness := some 7 } =
      .ok (u16le (encFlags { brightness := some 7 }) ++
        msgBody { brightness := some 7 }) :=
  (toBytes_offset_invariant { brightness := some 7 }).2.1 (by decide)

/-! ## Claim C6: brightness range check -/

/-- C6: with brightness set, `toBytes` succeeds exactly on 1..254 and fails
with a range error on 0 and on every value above 254, returning no bytes. -/
theorem toBytes_brightness_range (m : HueLightUpdateMessage) (b : Nat)
    (hb : m.brightness = some b) :
    (1 ≤ b ∧ b ≤ 254 → m.toBytes = .ok (u16le (encFlags m) ++ msgBody m)) ∧
    (b = 0 ∨ 255 ≤ b → m.toBytes = .error .range) := by
  constructor
  · rintro ⟨h1, h2⟩
    apply toBytes_eq
    simp [brightnessBad, hb]
    omega
  · intro h
    have hbad : brightnessBad m.brightness = true := by
      simp [brightnessBad, hb]
      omega
    unfold HueLightUpdateMessage.toBytes
    rw [hbad]
    simp

/-- Witness for C6 at brightness 1, 0 and 255. -/
theorem toBytes_brightness_range_witness :
    HueLightUpdateMessage.toBytes { brightness := some 1 } =
      .ok (u16le (encFlags { brightness := some 1 }) ++
        msgBody { brightness := some 1 }) ∧
    HueLightUpdateMessage.toBytes { brightness := some 0 } = .error .range ∧
    HueLightUpdateMessage.toBytes { brightness := some 255 } = .error .range :=
  ⟨(toBytes_brightness_range { brightness := some 1 } 1 rfl).1 (by decide),
   (toBytes_brightness_range { brightness := some 0 } 0 rfl).2 (by decide),
   (toBytes_brightness_range { brightness := some 255 } 255 rfl).2 (by decide)⟩

/-! ## Claim C2: the §8 gradient test vector -/

/-- C2: encoding the SCATTERED two-color gradient message with params
`{scale: 25.5, offset: 27.625}` produces exactly the bytes
`40 01 0a 20 02 00 00 23 c1 ab 89 f7 de cc dd` — flag word `0x0140`
little-endian, gradient block (size `0x0a`, count `0x20`, style `0x02`, two
zero bytes, two packed colors) before the params bytes `0xcc 0xdd` — and
decoding those bytes restores the message exactly (the chosen colors lie on
the quantization grid). -/
theorem gradient_example_bytes :
    HueLightUpdateMessage.toBytes exampleGradientMessage = .ok exampleGradientBytes ∧
    HueLightUpdateMessage.fromBytes exampleGradientBytes = .ok exampleGradientMessage := by
  constructor <;> with_unfolding_all rfl

/-! ## Decoder gradient-block characterization -/

/-- An in-bounds byte read yields the byte at that index. -/
theorem getU8_eq_getD {d : List Nat} {i : Nat} (h : i < d.length) :
    getU8 d i = .ok (d.getD i 0) := by
  unfold getU8
  rw [dif_pos h]
  congr 1
  simp [List.getD_eq_getElem?_getD, List.getElem?_eq_getElem h]

/-- A byte read fails (with a length error) exactly on out-of-bounds
indices. -/
theorem getU8_eq_error_iff {d : List Nat} {i : Nat} {e : Err} :
    getU8 d i = .error e ↔ d.length ≤ i ∧ e = .length := by
  unfold getU8
  split
  · next h => simp; omega
  · next h => simp [eq_comm]; omega

/-- `readColors` returns exactly as many colors as requested. -/
theorem readColors_length {d : List Nat} :
    ∀ {s n : Nat} {cs : List HueLightColorXY},
      readColors d s n = .ok cs → cs.length = n := by
  intro s n
  induction n generalizing s with
  | zero =>
    intro cs h
    simp only [readColors] at h
    injection h with h
    simp [← h]
  | succ k ih =>
    intro cs h
    simp only [readColors] at h
    rcases bind_eq_ok_iff.mp h with ⟨sc, hsc, h2⟩
    rcases bind_eq_ok_iff.mp h2 with ⟨rest, hrest, h3⟩
    injection h3 with h3
    rw [← h3]
    simp [ih hrest]

/-- Inversion of a failed bind. -/
theorem bind_eq_error_iff {ε α β : Type} {x : Except ε α} {f : α → Except ε β} {e : ε} :
    (x >>= f) = .error e ↔ x = .error e ∨ ∃ a, x = .ok a ∧ f a = .error e := by
  cases x with
  | ok a => simp
  | error e' => simp

/-- The scaled color decoder fails only with a length error. -/
theorem scaled_fromBytes_error {l : List Nat} {e : Err}
    (h : HueLightColorXYScaled.fromBytes l = .error e) : e = .length := by
  unfold HueLightColorXYScaled.fromBytes at h
  split at h
  · simp at h
  · injection h with h
    exact h.symm

/-- `readColors` can only fail with a length error (its only failure source
is the 3-byte check of the scaled color decoder). -/
theorem readColors_error {d : List Nat} :
    ∀ {s n : Nat} {e : Err}, readColors d s n = .error e → e = .length := by
  intro s n
  induction n generalizing s with
  | zero =>
    intro e h
    simp [readColors] at h
  | succ k ih =>
    intro e h
    simp only [readColors] at h
    rcases bind_eq_error_iff.mp h with h1 | ⟨sc, hsc, h2⟩
    · exact scaled_fromBytes_error h1
    · rcases bind_eq_error_iff.mp h2 with h3 | ⟨rest, hrest, h4⟩
      · exact ih h3
      · simp at h4

/-- A failed 16-bit read is a length error. -/
theorem getU16_eq_error {d : List Nat} {i : Nat} {e : Err}
    (h : getU16 d i = .error e) : e = .length := by
  unfold getU16 at h
  rcases h0 : getU8 d i with e0 | a
  · rw [h0, error_bind] at h
    injection h with h
    rw [← h]
    exact (getU8_eq_error_iff.mp h0).2
  · rw [h0, ok_bind] at h
    rcases h1 : getU8 d (i + 1) with e1 | b
    · rw [h1, error_bind] at h
      injection h with h
      rw [← h]
      exact (getU8_eq_error_iff.mp h1).2
    · rw [h1, ok_bind] at h
      simp at h

/-- `dOnOff` can only fail with a length error. -/
theorem dOnOff_error {d : List Nat} {flags : Nat}
    {st : HueLightUpdateMessage × Nat} {e : Err}
    (h : dOnOff d flags st = .error e) : e = .length := by
  unfold dOnOff at h
  by_cases hf : flags &&& FLAG_ON_OFF ≠ 0
  · rw [if_pos hf] at h
    rcases hv : getU8 d st.2 with e0 | v
    · rw [hv, error_bind] at h
      injection h with h
      rw [← h]
      exact (getU8_eq_error_iff.mp hv).2
    · rw [hv, ok_bind] at h
      simp at h
  · rw [if_neg hf] at h
    simp at h

/-- `dBrightness` can only fail with a length error. -/
theorem dBrightness_error {d : List Nat} {flags : Nat}
    {st : HueLightUpdateMessage × Nat} {e : Err}
    (h : dBrightness d flags st = .error e) : e = .length := by
  unfold dBrightness at h
  by_cases hf : flags &&& FLAG_BRIGHTNESS ≠ 0
  · rw [if_pos hf] at h
    rcases hv : getU8 d st.2 with e0 | v
    · rw [hv, error_bind] at h
      injection h with h
      rw [← h]
      exact (getU8_eq_error_iff.mp hv).2
    · rw [hv, ok_bind] at h
      simp at h
  · rw [if_neg hf] at h
    simp at h

/-- `dMired` can only fail with a length error. -/
theorem dMired_error {d : List Nat} {flags : Nat}
    {st : HueLightUpdateMessage × Nat} {e : Err}
    (h : dMired d flags st = .error e) : e = .length := by
  unfold dMired at h
  by_cases hf : flags &&& FLAG_COLOR_MIRED ≠ 0
  · rw [if_pos hf] at h
    rcases hv : getU16 d st.2 with e0 | v
    · rw [hv, error_bind] at h
      injection h with h
      rw [← h]
      exact getU16_eq_error hv
    · rw [hv, ok_bind] at h
      simp at h
  · rw [if_neg hf] at h
    simp at h

/-- `dTransition` can only fail with a length error. -/
theorem dTransition_error {d : List Nat} {flags : Nat}
    {st : HueLightUpdateMessage × Nat} {e : Err}
    (h : dTransition d flags st = .error e) : e = .length := by
  unfold dTransition at h
  by_cases hf : flags &&& FLAG_TRANSITION_TIME ≠ 0
  · rw [if_pos hf] at h
    rcases hv : getU16 d st.2 with e0 | v
    · rw [hv, error_bind] at h
      injection h with h
      rw [← h]
      exact getU16_eq_error hv
    · rw [hv, ok_bind] at h
      simp at h
  · rw [if_neg hf] at h
    simp at h

/-- `dEffect` can only fail with a length error. -/
theorem dEffect_error {d : List Nat} {flags : Nat}
    {st : HueLightUpdateMessage × Nat} {e : Err}
    (h : dEffect d flags st = .error e) : e = .length := by
  unfold dEffect at h
  by_cases hf : flags &&& FLAG_EFFECT ≠ 0
  · rw [if_pos hf] at h
    rcases hv : getU8 d st.2 with e0 | v
    · rw [hv, error_bind] at h
      injection h with h
      rw [← h]
      exact (getU8_eq_error_iff.mp hv).2
    · rw [hv, ok_bind] at h
      simp at h
  · rw [if_neg hf] at h
    simp at h

/-- `dSpeed` can only fail with a length error. -/
theorem dSpeed_error {d : List Nat} {flags : Nat}
    {st : HueLightUpdateMessage × Nat} {e : Err}
    (h : dSpeed d flags st = .error e) : e = .length := by
  unfold dSpeed at h
  by_cases hf : flags &&& FLAG_EFFECT_SPEED ≠ 0
  · rw [if_pos hf] at h
    rcases hv : getU8 d st.2 with e0 | v
    · rw [hv, error_bind] at h
      injection h with h
      rw [← h]
      exact (getU8_eq_error_iff.mp hv).2
    · rw [hv, ok_bind] at h
      simp at h
  · rw [if_neg hf] at h
    simp at h

/-- `dXY` can only fail with a length error. -/
theorem dXY_error {d : List Nat} {flags : Nat}
    {st : HueLightUpdateMessage × Nat} {e : Err}
    (h : dXY d flags st = .error e) : e = .length := by
  unfold dXY at h
  by_cases hf : flags &&& FLAG_COLOR_XY ≠ 0
  · rw [if_pos hf] at h
    rcases hv : getU16 d st.2 with e0 | v
    · rw [hv, error_bind] at h
      injection h with h
      rw [← h]
      exact getU16_eq_error hv
    · rw [hv, ok_bind] at h
      rcases hw : getU16 d (st.2 + 2) with e1 | w
      · rw [hw, error_bind] at h
        injection h with h
        rw [← h]
        exact getU16_eq_error hw
      · rw [hw, ok_bind] at h
        simp at h
  · rw [if_neg hf] at h
    simp at h

/-- `dParams` can only fail with a length error. -/
theorem dParams_error {d : List Nat} {flags : Nat}
    {st : HueLightUpdateMessage × Nat} {e : Err}
    (h : dParams d flags st = .error e) : e = .length := by
  unfold dParams at h
  by_cases hf : flags &&& FLAG_GRADIENT_PARAMS ≠ 0
  · rw [if_pos hf] at h
    rcases hv : getU8 d st.2 with e0 | v
    · rw [hv, error_bind] at h
      injection h with h
      rw [← h]
      exact (getU8_eq_error_iff.mp hv).2
    · rw [hv, ok_bind] at h
      rcases hw : getU8 d (st.2 + 1) with e1 | w
      · rw [hw, error_bind] at h
        injection h with h
        rw [← h]
        exact (getU8_eq_error_iff.mp hw).2
      · rw [hw, ok_bind] at h
        simp at h
  · rw [if_neg hf] at h
    simp at h

/-! ## Claim C4: the three gradient format errors -/

/-- C4: `fromBytes` rejects a gradient block with a format error in exactly
three cases.  Part 1: with the gradient flag set, the gradient step fails
with a format error exactly when the size byte is less than 4
(`sizeTooSmall`), the declared block extends past the end of the buffer
(`beyondEnd`), or the color span `5 + 3 × colorCount` (count from the high
nibble after the size byte) extends past the declared size
(`notEnoughData`), the checks applied in that order.  Part 2: every format
error of `fromBytes` originates in that gradient step — no other field can
produce one. -/
theorem dGradient_formatError_iff :
    (∀ (d : List Nat) (flags : Nat) (msg : HueLightUpdateMessage) (off : Nat)
        (r : FormatReason), flags &&& FLAG_GRADIENT_COLORS ≠ 0 →
      (dGradient d flags (msg, off) = .error (.format r) ↔
        off < d.length ∧
        ((r = .sizeTooSmall ∧ d.getD off 0 < 4) ∨
         (r = .beyondEnd ∧ 4 ≤ d.getD off 0 ∧ d.length < off + d.getD off 0 + 1) ∨
         (r = .notEnoughData ∧ 4 ≤ d.getD off 0 ∧
           off + d.getD off 0 + 1 ≤ d.length ∧
           off + d.getD off 0 + 1 < off + 5 + (d.getD (off + 1) 0 >>> 4) * 3)))) ∧
    (∀ (d : List Nat) (r : FormatReason),
      HueLightUpdateMessage.fromBytes d = .error (.format r) →
      ∃ flags st, getU16 d 0 = .ok flags ∧ flags &&& FLAG_GRADIENT_COLORS ≠ 0 ∧
        dGradient d flags st = .error (.format r)) := by
  constructor
  · intro d flags msg off r hflag
    unfold dGradient
    rw [if_pos hflag]
    by_cases hoff : off < d.length
    · rw [getU8_eq_getD hoff, ok_bind]
      by_cases h4 : d.getD off 0 < 4
      · rw [if_pos h4]
        simp only [Except.error.injEq, Err.format.injEq]
        constructor
        · intro h
          exact ⟨hoff, Or.inl ⟨h.symm, h4⟩⟩
        · rintro ⟨-, ⟨hr, -⟩ | ⟨-, hge, -⟩ | ⟨-, hge, -⟩⟩
          · rw [hr]
          · omega
          · omega
      · rw [if_neg h4]
        by_cases hb : off + d.getD off 0 + 1 > d.length
        · rw [if_pos hb]
          simp only [Except.error.injEq, Err.format.injEq]
          constructor
          · intro h
            exact ⟨hoff, Or.inr (Or.inl ⟨h.symm, by omega, by omega⟩)⟩
          · rintro ⟨-, ⟨-, hlt⟩ | ⟨hr, -, -⟩ | ⟨-, -, hle, -⟩⟩
            · omega
            · rw [hr]
            · omega
        · rw [if_neg hb]
          have hoff1 : off + 1 < d.length := by omega
          have hoff2 : off + 2 < d.length := by omega
          rw [getU8_eq_getD hoff1, ok_bind, getU8_eq_getD hoff2, ok_bind]
          by_cases hc : off + 5 + (d.getD (off + 1) 0 >>> 4) * 3 >
              off + d.getD off 0 + 1
          · rw [if_pos hc]
            simp only [Except.error.injEq, Err.format.injEq]
            constructor
            · intro h
              exact ⟨hoff, Or.inr (Or.inr ⟨h.symm, by omega, by omega, by omega⟩)⟩
            · rintro ⟨-, ⟨-, hlt⟩ | ⟨-, -, hlen⟩ | ⟨hr, -, -, -⟩⟩
              · omega
              · omega
              · rw [hr]
          · rw [if_neg hc]
            constructor
            · intro h
              rcases bind_eq_error_iff.mp h with h1 | ⟨cs, -, h2⟩
              · have := readColors_error h1
                simp at this
              · simp at h2
            · rintro ⟨-, ⟨-, hlt⟩ | ⟨-, -, hlen⟩ | ⟨-, -, -, hsp⟩⟩
              · omega
              · omega
              · omega
    · have herr : getU8 d off = .error .length :=
        getU8_eq_error_iff.mpr ⟨by omega, rfl⟩
      rw [herr, error_bind]
      simp only [Except.error.injEq]
      constructor
      · intro h
        cases h
      · rintro ⟨hlt, -⟩
        omega
  · intro d r h
    unfold HueLightUpdateMessage.fromBytes at h
    rcases hf : getU16 d 0 with e | flags
    · rw [hf, error_bind] at h
      rw [getU16_eq_error hf] at h
      simp at h
    · rw [hf, ok_bind] at h
      rcases h1 : dOnOff d flags ({}, 2) with e | st1
      · rw [h1, error_bind] at h
        rw [dOnOff_error h1] at h
        simp at h
      · rw [h1, ok_bind] at h
        rcases h2 : dBrightness d flags st1 with e | st2
        · rw [h2, error_bind] at h
          rw [dBrightness_error h2] at h
          simp at h
        · rw [h2, ok_bind] at h
          rcases h3 : dMired d flags st2 with e | st3
          · rw [h3, error_bind] at h
            rw [dMired_error h3] at h
            simp at h
          · rw [h3, ok_bind] at h
            rcases h4 : dXY d flags st3 with e | st4
            · rw [h4, error_bind] at h
              rw [dXY_error h4] at h
              simp at h
            · rw [h4, ok_bind] at h
              rcases h5 : dTransition d flags st4 with e | st5
              · rw [h5, error_bind] at h
                rw [dTransition_error h5] at h
                simp at h
              · rw [h5, ok_bind] at h
                rcases h6 : dEffect d flags st5 with e | st6
                · rw [h6, error_bind] at h
                  rw [dEffect_error h6] at h
                  simp at h
                · rw [h6, ok_bind] at h
                  rcases h7 : dGradient d flags st6 with e | st7
                  · rw [h7, error_bind] at h
                    injection h with h
                    rw [h] at h7
                    have hflag : flags &&& FLAG_GRADIENT_COLORS ≠ 0 := by
                      intro h0
                      have h7' := h7
                      unfold dGradient at h7'
                      rw [if_neg (by simp [h0])] at h7'
                      simp at h7'
                    exact ⟨flags, st6, rfl, hflag, h7⟩
                  · rw [h7, ok_bind] at h
                    rcases h8 : dSpeed d flags st7 with e | st8
                    · rw [h8, error_bind] at h
                      rw [dSpeed_error h8] at h
                      simp at h
                    · rw [h8, ok_bind] at h
                      rcases h9 : dParams d flags st8 with e | st9
                      · rw [h9, error_bind] at h
                        rw [dParams_error h9] at h
                        simp at h
                      · rw [h9, ok_bind] at h
                        simp at h

/-- Witness for C4 on a concrete truncated gradient block. -/
theorem dGradient_formatError_iff_witness :
    (dGradient [0, 1, 10] 256 ({}, 2) = .error (.format .beyondEnd) ↔
      2 < 3 ∧
      ((FormatReason.beyondEnd = .sizeTooSmall ∧ [0, 1, 10].getD 2 0 < 4) ∨
       (FormatReason.beyondEnd = .beyondEnd ∧ 4 ≤ [0, 1, 10].getD 2 0 ∧
         3 < 2 + [0, 1, 10].getD 2 0 + 1) ∨
       (FormatReason.beyondEnd = .notEnoughData ∧ 4 ≤ [0, 1, 10].getD 2 0 ∧
         2 + [0, 1, 10].getD 2 0 + 1 ≤ 3 ∧
         2 + [0, 1, 10].getD 2 0 + 1 < 2 + 5 + ([0, 1, 10].getD 3 0 >>> 4) * 3))) :=
  dGradient_formatError_iff.1 [0, 1, 10] 256 {} 2 .beyondEnd (by decide)

/-! ## Claim C5: the size byte need only dominate the color span -/

/-- C5 counterexample: a gradient block whose size byte (7) disagrees with
`4 + 3 × colorCount = 4` (count 0) is accepted by the decoder, which skips
the three excess bytes. -/
theorem gradient_size_slack_cex :
    HueLightUpdateMessage.fromBytes [0, 1, 7, 0, 0, 0, 0, 0, 0, 0] =
      .ok { gradient := some ⟨0, []⟩ } ∧
    (7 : Nat) ≠ 4 + 3 * 0 := by
  constructor
  · with_unfolding_all rfl
  · decide

/-- C5 amended: with the gradient flag set, the gradient step succeeds only
if the declared size byte is at least `4 + 3 × colorCount` (not necessarily
equal); on success the decoded color count is the high nibble after the size
byte and the cursor advances by the declared size plus one, within bounds. -/
theorem dGradient_size_lower_bound (d : List Nat) (flags : Nat)
    (msg msg' : HueLightUpdateMessage) (off off' : Nat)
    (hflag : flags &&& FLAG_GRADIENT_COLORS ≠ 0)
    (h : dGradient d flags (msg, off) = .ok (msg', off')) :
    ∃ g, msg'.gradient = some g ∧
      g.colors.length = d.getD (off + 1) 0 >>> 4 ∧
      4 ≤ d.getD off 0 ∧
      4 + 3 * g.colors.length ≤ d.getD off 0 ∧
      off' = off + d.getD off 0 + 1 ∧
      off' ≤ d.length := by
  unfold dGradient at h
  rw [if_pos hflag] at h
  rcases hs : getU8 d off with e | size
  · rw [hs] at h
    simp at h
  · rw [hs] at h
    obtain ⟨hofflt, hsize⟩ := getU8_eq_ok hs
    rw [ok_bind] at h
    by_cases h4 : size < 4
    · rw [if_pos h4] at h
      simp at h
    · rw [if_neg h4] at h
      by_cases hb : off + size + 1 > d.length
      · rw [if_pos hb] at h
        simp at h
      · rw [if_neg hb] at h
        rcases h1 : getU8 d (off + 1) with e | cb
        · rw [h1] at h
          simp at h
        · rw [h1] at h
          obtain ⟨-, hcb⟩ := getU8_eq_ok h1
          rw [ok_bind] at h
          rcases h2 : getU8 d (off + 2) with e | sb
          · rw [h2] at h
            simp at h
          · rw [h2] at h
            rw [ok_bind] at h
            by_cases hc : off + 5 + (cb >>> 4) * 3 > off + size + 1
            · rw [if_pos hc] at h
              simp at h
            · rw [if_neg hc] at h
              rcases h3 : readColors d (off + 5) (cb >>> 4) with e | cs
              · rw [h3] at h
                simp at h
              · rw [h3] at h
                rw [ok_bind] at h
                injection h with h
                injection h with hmsg hoff
                have hoff2 : off + size + 1 = off' := hoff
                have hlen := readColors_length h3
                refine ⟨⟨sb, cs⟩, ?_, ?_, by omega, ?_, ?_, ?_⟩
                · rw [← hmsg]
                · show cs.length = d.getD (off + 1) 0 >>> 4
                  rw [hlen, hcb]
                · show 4 + 3 * cs.length ≤ d.getD off 0
                  omega
                · show off' = off + d.getD off 0 + 1
                  omega
                · omega

/-- Witness for C5 (amended) on the counterexample buffer. -/
theorem dGradient_size_lower_bound_witness :
    ∃ g, HueLightGradient.style ⟨0, []⟩ = 0 ∧
      ({ gradient := some (⟨0, []⟩ : HueLightGradient) } :
        HueLightUpdateMessage).gradient = some g ∧
      g.colors.length = [0, 1, 7, 0, 0, 0, 0, 0, 0, 0].getD 3 0 >>> 4 ∧
      4 ≤ [0, 1, 7, 0, 0, 0, 0, 0, 0, 0].getD 2 0 ∧
      4 + 3 * g.colors.length ≤ [0, 1, 7, 0, 0, 0, 0, 0, 0, 0].getD 2 0 ∧
      10 = 2 + [0, 1, 7, 0, 0, 0, 0, 0, 0, 0].getD 2 0 + 1 ∧
      10 ≤ [0, 1, 7, 0, 0, 0, 0, 0, 0, 0].length := by
  have h := dGradient_size_lower_bound [0, 1, 7, 0, 0, 0, 0, 0, 0, 0] 256
    {} { gradient := some ⟨0, []⟩ } 2 10 (by decide) (by with_unfolding_all rfl)
  rcases h with ⟨g, hg⟩
  exact ⟨g, rfl, hg⟩

/-! ## Appending trailing bytes preserves successful decoding -/

/-- A successful scaled-color decode consumed exactly 3 bytes. -/
theorem scaled_fromBytes_ok_length {l : List Nat} {s : HueLightColorXYScaled}
    (h : HueLightColorXYScaled.fromBytes l = .ok s) : l.length = 3 := by
  unfold HueLightColorXYScaled.fromBytes at h
  split at h
  · next a b c => simp
  · simp at h

/-- A successful color-list read is unchanged by appending to the buffer. -/
theorem readColors_append {d t : List Nat} :
    ∀ {s n : Nat} {cs : List HueLightColorXY},
      readColors d s n = .ok cs → readColors (d ++ t) s n = .ok cs := by
  intro s n
  induction n generalizing s with
  | zero =>
    intro cs h
    simpa [readColors] using h
  | succ k ih =>
    intro cs h
    simp only [readColors] at h ⊢
    rcases hs : HueLightColorXYScaled.fromBytes ((d.drop s).take 3) with e | sc
    · rw [hs] at h
      simp at h
    · rw [hs] at h
      rw [ok_bind] at h
      have hlen3 : ((d.drop s).take 3).length = 3 := scaled_fromBytes_ok_length hs
      have hsle : s + 3 ≤ d.length := by
        simp at hlen3
        omega
      have hslice : ((d ++ t).drop s).take 3 = (d.drop s).take 3 := by
        rw [List.drop_append_of_le_length (by omega)]
        rw [List.take_append_of_le_length (by simp; omega)]
      rw [hslice, hs, ok_bind]
      rcases hr : readColors d (s + 3) k with e | rest
      · rw [hr] at h
        simp at h
      · rw [hr] at h
        rw [ih hr]
        exact h

/-- The `isOn` step is unchanged by appending to the buffer. -/
theorem dOnOff_append {d t : List Nat} {flags : Nat}
    {st st' : HueLightUpdateMessage × Nat} (h : dOnOff d flags st = .ok st') :
    dOnOff (d ++ t) flags st = .ok st' := by
  unfold dOnOff at h ⊢
  by_cases hf : flags &&& FLAG_ON_OFF ≠ 0
  · rw [if_pos hf] at h ⊢
    rcases hv : getU8 d st.2 with e | v
    · rw [hv] at h
      simp at h
    · rw [hv] at h
      rw [getU8_append t hv]
      exact h
  · rw [if_neg hf] at h ⊢
    exact h

/-- The `brightness` step is unchanged by appending to the buffer. -/
theorem dBrightness_append {d t : List Nat} {flags : Nat}
    {st st' : HueLightUpdateMessage × Nat} (h : dBrightness d flags st = .ok st') :
    dBrightness (d ++ t) flags st = .ok st' := by
  unfold dBrightness at h ⊢
  by_cases hf : flags &&& FLAG_BRIGHTNESS ≠ 0
  · rw [if_pos hf] at h ⊢
    rcases hv : getU8 d st.2 with e | v
    · rw [hv] at h
      simp at h
    · rw [hv] at h
      rw [getU8_append t hv]
      exact h
  · rw [if_neg hf] at h ⊢
    exact h

/-- The `colorTemp` step is unchanged by appending to the buffer. -/
theorem dMired_append {d t : List Nat} {flags : Nat}
    {st st' : HueLightUpdateMessage × Nat} (h : dMired d flags st = .ok st') :
    dMired (d ++ t) flags st = .ok st' := by
  unfold dMired at h ⊢
  by_cases hf : flags &&& FLAG_COLOR_MIRED ≠ 0
  · rw [if_pos hf] at h ⊢
    rcases hv : getU16 d st.2 with e | v
    · rw [hv] at h
      simp at h
    · rw [hv] at h
      rw [getU16_append t hv]
      exact h
  · rw [if_neg hf] at h ⊢
    exact h

/-- The `colorXY` step is unchanged by appending to the buffer. -/
theorem dXY_append {d t : List Nat} {flags : Nat}
    {st st' : HueLightUpdateMessage × Nat} (h : dXY d flags st = .ok st') :
    dXY (d ++ t) flags st = .ok st' := by
  unfold dXY at h ⊢
  by_cases hf : flags &&& FLAG_COLOR_XY ≠ 0
  · rw [if_pos hf] at h ⊢
    rcases hv : getU16 d st.2 with e | v
    · rw [hv] at h
      simp at h
    · rw [hv] at h
      rw [ok_bind] at h
      rw [getU16_append t hv, ok_bind]
      rcases hw : getU16 d (st.2 + 2) with e | w
      · rw [hw] at h
        simp at h
      · rw [hw] at h
        rw [getU16_append t hw]
        exact h
  · rw [if_neg hf] at h ⊢
    exact h

/-- The `transitionTime` step is unchanged by appending to the buffer. -/
theorem dTransition_append {d t : List Nat} {flags : Nat}
    {st st' : HueLightUpdateMessage × Nat} (h : dTransition d flags st = .ok st') :
    dTransition (d ++ t) flags st = .ok st' := by
  unfold dTransition at h ⊢
  by_cases hf : flags &&& FLAG_TRANSITION_TIME ≠ 0
  · rw [if_pos hf] at h ⊢
    rcases hv : getU16 d st.2 with e | v
    · rw [hv] at h
      simp at h
    · rw [hv] at h
      rw [getU16_append t hv]
      exact h
  · rw [if_neg hf] at h ⊢
    exact h

/-- The `effect` step is unchanged by appending to the buffer. -/
theorem dEffect_append {d t : List Nat} {flags : Nat}
    {st st' : HueLightUpdateMessage × Nat} (h : dEffect d flags st = .ok st') :
    dEffect (d ++ t) flags st = .ok st' := by
  unfold dEffect at h ⊢
  by_cases hf : flags &&& FLAG_EFFECT ≠ 0
  · rw [if_pos hf] at h ⊢
    rcases hv : getU8 d st.2 with e | v
    · rw [hv] at h
      simp at h
    · rw [hv] at h
      rw [getU8_append t hv]
      exact h
  · rw [if_neg hf] at h ⊢
    exact h

/-- The gradient step is unchanged by appending to the buffer. -/
theorem dGradient_append {d t : List Nat} {flags : Nat}
    {st st' : HueLightUpdateMessage × Nat} (h : dGradient d flags st = .ok st') :
    dGradient (d ++ t) flags st = .ok st' := by
  unfold dGradient at h ⊢
  by_cases hf : flags &&& FLAG_GRADIENT_COLORS ≠ 0
  · rw [if_pos hf] at h ⊢
    rcases hv : getU8 d st.2 with e | size
    · rw [hv] at h
      simp at h
    · rw [hv] at h
      rw [ok_bind] at h
      rw [getU8_append t hv, ok_bind]
      by_cases h4 : size < 4
      · rw [if_pos h4] at h
        simp at h
      · rw [if_neg h4] at h ⊢
        by_cases hb : st.2 + size + 1 > d.length
        · rw [if_pos hb] at h
          simp at h
        · rw [if_neg hb] at h
          rw [if_neg (by simp; omega : ¬st.2 + size + 1 > (d ++ t).length)]
          rcases h1 : getU8 d (st.2 + 1) with e | cb
          · rw [h1] at h
            simp at h
          · rw [h1] at h
            rw [ok_bind] at h
            rw [getU8_append t h1, ok_bind]
            rcases h2 : getU8 d (st.2 + 2) with e | sb
            · rw [h2] at h
              simp at h
            · rw [h2] at h
              rw [ok_bind] at h
              rw [getU8_append t h2, ok_bind]
              by_cases hc : st.2 + 5 + cb >>> 4 * 3 > st.2 + size + 1
              · rw [if_pos hc] at h
                simp at h
              · rw [if_neg hc] at h ⊢
                rcases h3 : readColors d (st.2 + 5) (cb >>> 4) with e | cs
                · rw [h3] at h
                  simp at h
                · rw [h3] at h
                  rw [readColors_append h3]
                  exact h
  · rw [if_neg hf] at h ⊢
    exact h

/-- The `effectSpeed` step is unchanged by appending to the buffer. -/
theorem dSpeed_append {d t : List Nat} {flags : Nat}
    {st st' : HueLightUpdateMessage × Nat} (h : dSpeed d flags st = .ok st') :
    dSpeed (d ++ t) flags st = .ok st' := by
  unfold dSpeed at h ⊢
  by_cases hf : flags &&& FLAG_EFFECT_SPEED ≠ 0
  · rw [if_pos hf] at h ⊢
    rcases hv : getU8 d st.2 with e | v
    · rw [hv] at h
      simp at h
    · rw [hv] at h
      rw [getU8_append t hv]
      exact h
  · rw [if_neg hf] at h ⊢
    exact h

/-- The `gradientParams` step is unchanged by appending to the buffer. -/
theorem dParams_append {d t : List Nat} {flags : Nat}
    {st st' : HueLightUpdateMessage × Nat} (h : dParams d flags st = .ok st') :
    dParams (d ++ t) flags st = .ok st' := by
  unfold dParams at h ⊢
  by_cases hf : flags &&& FLAG_GRADIENT_PARAMS ≠ 0
  · rw [if_pos hf] at h ⊢
    rcases hv : getU8 d st.2 with e | v
    · rw [hv] at h
      simp at h
    · rw [hv] at h
      rw [ok_bind] at h
      rw [getU8_append t hv, ok_bind]
      rcases hw : getU8 d (st.2 + 1) with e | w
      · rw [hw] at h
        simp at h
      · rw [hw] at h
        rw [getU8_append t hw]
        exact h
  · rw [if_neg hf] at h ⊢
    exact h

/-! ## Claim C10: trailing bytes are ignored -/

/-- C10: whenever decoding a buffer succeeds, decoding that buffer with any
trailing bytes appended also succeeds and returns the same message — bytes
beyond the last flag-gated field are never an error. -/
theorem fromBytes_trailing_bytes (d t : List Nat) (m : HueLightUpdateMessage)
    (h : HueLightUpdateMessage.fromBytes d = .ok m) :
    HueLightUpdateMessage.fromBytes (d ++ t) = .ok m := by
  unfold HueLightUpdateMessage.fromBytes at h ⊢
  rcases hf : getU16 d 0 with e | flags
  · rw [hf] at h
    simp at h
  · rw [hf, ok_bind] at h
    rw [getU16_append t hf, ok_bind]
    rcases h1 : dOnOff d flags ({}, 2) with e | st1
    · rw [h1] at h
      simp at h
    · rw [h1, ok_bind] at h
      rw [dOnOff_append h1, ok_bind]
      rcases h2 : dBrightness d flags st1 with e | st2
      · rw [h2] at h
        simp at h
      · rw [h2, ok_bind] at h
        rw [dBrightness_append h2, ok_bind]
        rcases h3 : dMired d flags st2 with e | st3
        · rw [h3] at h
          simp at h
        · rw [h3, ok_bind] at h
          rw [dMired_append h3, ok_bind]
          rcases h4 : dXY d flags st3 with e | st4
          · rw [h4] at h
            simp at h
          · rw [h4, ok_bind] at h
            rw [dXY_append h4, ok_bind]
            rcases h5 : dTransition d flags st4 with e | st5
            · rw [h5] at h
              simp at h
            · rw [h5, ok_bind] at h
              rw [dTransition_append h5, ok_bind]
              rcases h6 : dEffect d flags st5 with e | st6
              · rw [h6] at h
                simp at h
              · rw [h6, ok_bind] at h
                rw [dEffect_append h6, ok_bind]
                rcases h7 : dGradient d flags st6 with e | st7
                · rw [h7] at h
                  simp at h
                · rw [h7, ok_bind] at h
                  rw [dGradient_append h7, ok_bind]
                  rcases h8 : dSpeed d flags st7 with e | st8
                  · rw [h8] at h
                    simp at h
                  · rw [h8, ok_bind] at h
                    rw [dSpeed_append h8, ok_bind]
                    rcases h9 : dParams d flags st8 with e | st9
                    · rw [h9] at h
                      simp at h
                    · rw [h9, ok_bind] at h
                      rw [dParams_append h9, ok_bind]
                      exact h

/-- Witness for C10 on a concrete buffer with trailing bytes. -/
theorem fromBytes_trailing_bytes_witness :
    HueLightUpdateMessage.fromBytes ([2, 0, 77] ++ [9, 9, 9]) =
      .ok { brightness := some 77 } :=
  fromBytes_trailing_bytes [2, 0, 77] [9, 9, 9] { brightness := some 77 }
    (by with_unfolding_all rfl)


/-! ## Claim C9: unassigned flag bits are ignored -/

/-- Masking with a single bit below bit 9 only depends on the flag word
modulo 512. -/
theorem and_mask_mod_512 (flags k : Nat) (hk : k < 9) :
    flags % 512 &&& 2 ^ k = flags &&& 2 ^ k := by
  apply Nat.eq_of_testBit_eq
  intro i
  have h512 : (512 : Nat) = 2 ^ 9 := by norm_num
  rw [h512]
  simp only [Nat.testBit_and, Nat.testBit_mod_two_pow]
  by_cases hki : k = i
  · subst hki
    have hd : decide (k < 9) = true := decide_eq_true hk
    simp [Nat.testBit_two_pow_self, hd]
  · simp [Nat.testBit_two_pow_of_ne hki]

/-- `dOnOff` only examines its own flag bit. -/
theorem dOnOff_congr {flags flags' : Nat}
    (h : flags &&& FLAG_ON_OFF = flags' &&& FLAG_ON_OFF) :
    ∀ (d : List Nat) (st : HueLightUpdateMessage × Nat),
      dOnOff d flags st = dOnOff d flags' st := by
  intro d st
  unfold dOnOff
  rw [h]

/-- `dBrightness` only examines its own flag bit. -/
theorem dBrightness_congr {flags flags' : Nat}
    (h : flags &&& FLAG_BRIGHTNESS = flags' &&& FLAG_BRIGHTNESS) :
    ∀ (d : List Nat) (st : HueLightUpdateMessage × Nat),
      dBrightness d flags st = dBrightness d flags' st := by
  intro d st
  unfold dBrightness
  rw [h]

/-- `dMired` only examines its own flag bit. -/
theorem dMired_congr {flags flags' : Nat}
    (h : flags &&& FLAG_COLOR_MIRED = flags' &&& FLAG_COLOR_MIRED) :
    ∀ (d : List Nat) (st : HueLightUpdateMessage × Nat),
      dMired d flags st = dMired d flags' st := by
  intro d st
  unfold dMired
  rw [h]

/-- `dXY` only examines its own flag bit. -/
theorem dXY_congr {flags flags' : Nat}
    (h : flags &&& FLAG_COLOR_XY = flags' &&& FLAG_COLOR_XY) :
    ∀ (d : List Nat) (st : HueLightUpdateMessage × Nat),
      dXY d flags st = dXY d flags' st := by
  intro d st
  unfold dXY
  rw [h]

/-- `dTransition` only examines its own flag bit. -/
theorem dTransition_congr {flags flags' : Nat}
    (h : flags &&& FLAG_TRANSITION_TIME = flags' &&& FLAG_TRANSITION_TIME) :
    ∀ (d : List Nat) (st : HueLightUpdateMessage × Nat),
      dTransition d flags st = dTransition d flags' st := by
  intro d st
  unfold dTransition
  rw [h]

/-- `dEffect` only examines its own flag bit. -/
theorem dEffect_congr {flags flags' : Nat}
    (h : flags &&& FLAG_EFFECT = flags' &&& FLAG_EFFECT) :
    ∀ (d : List Nat) (st : HueLightUpdateMessage × Nat),
      dEffect d flags st = dEffect d flags' st := by
  intro d st
  unfold dEffect
  rw [h]

/-- `dGradient` only examines its own flag bit. -/
theorem dGradient_congr {flags flags' : Nat}
    (h : flags &&& FLAG_GRADIENT_COLORS = flags' &&& FLAG_GRADIENT_COLORS) :
    ∀ (d : List Nat) (st : HueLightUpdateMessage × Nat),
      dGradient d flags st = dGradient d flags' st := by
  intro d st
  unfold dGradient
  rw [h]

/-- `dSpeed` only examines its own flag bit. -/
theorem dSpeed_congr {flags flags' : Nat}
    (h : flags &&& FLAG_EFFECT_SPEED = flags' &&& FLAG_EFFECT_SPEED) :
    ∀ (d : List Nat) (st : HueLightUpdateMessage × Nat),
      dSpeed d flags st = dSpeed d flags' st := by
  intro d st
  unfold dSpeed
  rw [h]

/-- `dParams` only examines its own flag bit. -/
theorem dParams_congr {flags flags' : Nat}
    (h : flags &&& FLAG_GRADIENT_PARAMS = flags' &&& FLAG_GRADIENT_PARAMS) :
    ∀ (d : List Nat) (st : HueLightUpdateMessage × Nat),
      dParams d flags st = dParams d flags' st := by
  intro d st
  unfold dParams
  rw [h]

/-- Byte reads at offsets past the flag word do not depend on the flag
bytes. -/
theorem getU8_tail2 (x y x' y' : Nat) (l : List Nat) (i : Nat) (hi : 2 ≤ i) :
    getU8 (x :: y :: l) i = getU8 (x' :: y' :: l) i := by
  obtain ⟨k, rfl⟩ : ∃ k, i = k + 2 := ⟨i - 2, by omega⟩
  unfold getU8
  by_cases h : k + 2 < (x :: y :: l).length
  · rw [dif_pos h, dif_pos (by simpa using h)]
    simp
  · rw [dif_neg h, dif_neg (by simpa using h)]

/-- 16-bit reads at offsets past the flag word do not depend on the flag
bytes. -/
theorem getU16_tail2 (x y x' y' : Nat) (l : List Nat) (i : Nat) (hi : 2 ≤ i) :
    getU16 (x :: y :: l) i = getU16 (x' :: y' :: l) i := by
  unfold getU16
  rw [getU8_tail2 x y x' y' l i hi, getU8_tail2 x y x' y' l (i + 1) (by omega)]

/-- Color reads at offsets past the flag word do not depend on the flag
bytes. -/
theorem readColors_tail2 (x y x' y' : Nat) (l : List Nat) :
    ∀ (n s : Nat), 2 ≤ s →
      readColors (x :: y :: l) s n = readColors (x' :: y' :: l) s n := by
  intro n
  induction n with
  | zero =>
    intro s hs
    simp [readColors]
  | succ k ih =>
    intro s hs
    obtain ⟨j, rfl⟩ : ∃ j, s = j + 2 := ⟨s - 2, by omega⟩
    simp only [readColors]
    have hdrop : (x :: y :: l).drop (j + 2) = l.drop j := rfl
    have hdrop' : (x' :: y' :: l).drop (j + 2) = l.drop j := rfl
    rw [hdrop, hdrop', ih (j + 2 + 3) (by omega)]

/-- The `isOn` step only reads past the flag word. -/
theorem dOnOff_tail2 (x y x' y' : Nat) (l : List Nat) (flags : Nat)
    (st : HueLightUpdateMessage × Nat) (hs : 2 ≤ st.2) :
    dOnOff (x :: y :: l) flags st = dOnOff (x' :: y' :: l) flags st := by
  unfold dOnOff
  rw [getU8_tail2 x y x' y' l st.2 hs]

/-- The `brightness` step only reads past the flag word. -/
theorem dBrightness_tail2 (x y x' y' : Nat) (l : List Nat) (flags : Nat)
    (st : HueLightUpdateMessage × Nat) (hs : 2 ≤ st.2) :
    dBrightness (x :: y :: l) flags st = dBrightness (x' :: y' :: l) flags st := by
  unfold dBrightness
  rw [getU8_tail2 x y x' y' l st.2 hs]

/-- The `colorTemp` step only reads past the flag word. -/
theorem dMired_tail2 (x y x' y' : Nat) (l : List Nat) (flags : Nat)
    (st : HueLightUpdateMessage × Nat) (hs : 2 ≤ st.2) :
    dMired (x :: y :: l) flags st = dMired (x' :: y' :: l) flags st := by
  unfold dMired
  rw [getU16_tail2 x y x' y' l st.2 hs]

/-- The `colorXY` step only reads past the flag word. -/
theorem dXY_tail2 (x y x' y' : Nat) (l : List Nat) (flags : Nat)
    (st : HueLightUpdateMessage × Nat) (hs : 2 ≤ st.2) :
    dXY (x :: y :: l) flags st = dXY (x' :: y' :: l) flags st := by
  unfold dXY
  rw [getU16_tail2 x y x' y' l st.2 hs, getU16_tail2 x y x' y' l (st.2 + 2) (by omega)]

/-- The `transitionTime` step only reads past the flag word. -/
theorem dTransition_tail2 (x y x' y' : Nat) (l : List Nat) (flags : Nat)
    (st : HueLightUpdateMessage × Nat) (hs : 2 ≤ st.2) :
    dTransition (x :: y :: l) flags st = dTransition (x' :: y' :: l) flags st := by
  unfold dTransition
  rw [getU16_tail2 x y x' y' l st.2 hs]

/-- The `effect` step only reads past the flag word. -/
theorem dEffect_tail2 (x y x' y' : Nat) (l : List Nat) (flags : Nat)
    (st : HueLightUpdateMessage × Nat) (hs : 2 ≤ st.2) :
    dEffect (x :: y :: l) flags st = dEffect (x' :: y' :: l) flags st := by
  unfold dEffect
  rw [getU8_tail2 x y x' y' l st.2 hs]

/-- The gradient step only reads past the flag word. -/
theorem dGradient_tail2 (x y x' y' : Nat) (l : List Nat) (flags : Nat)
    (st : HueLightUpdateMessage × Nat) (hs : 2 ≤ st.2) :
    dGradient (x :: y :: l) flags st = dGradient (x' :: y' :: l) flags st := by
  unfold dGradient
  rw [getU8_tail2 x y x' y' l st.2 hs]
  rcases hv : getU8 (x' :: y' :: l) st.2 with e | size
  · rfl
  · rw [ok_bind, ok_bind]
    have hlen : (x :: y :: l).length = (x' :: y' :: l).length := by simp
    rw [hlen, getU8_tail2 x y x' y' l (st.2 + 1) (by omega),
      getU8_tail2 x y x' y' l (st.2 + 2) (by omega)]
    rcases h1 : getU8 (x' :: y' :: l) (st.2 + 1) with e | cb
    · rfl
    · rw [ok_bind, ok_bind]
      rcases h2 : getU8 (x' :: y' :: l) (st.2 + 2) with e | sb
      · rfl
      · rw [ok_bind, ok_bind, readColors_tail2 x y x' y' l (cb >>> 4) (st.2 + 5) (by omega)]

/-- The `effectSpeed` step only reads past the flag word. -/
theorem dSpeed_tail2 (x y x' y' : Nat) (l : List Nat) (flags : Nat)
    (st : HueLightUpdateMessage × Nat) (hs : 2 ≤ st.2) :
    dSpeed (x :: y :: l) flags st = dSpeed (x' :: y' :: l) flags st := by
  unfold dSpeed
  rw [getU8_tail2 x y x' y' l st.2 hs]

/-- The `gradientParams` step only reads past the flag word. -/
theorem dParams_tail2 (x y x' y' : Nat) (l : List Nat) (flags : Nat)
    (st : HueLightUpdateMessage × Nat) (hs : 2 ≤ st.2) :
    dParams (x :: y :: l) flags st = dParams (x' :: y' :: l) flags st := by
  unfold dParams
  rw [getU8_tail2 x y x' y' l st.2 hs, getU8_tail2 x y x' y' l (st.2 + 1) (by omega)]

/-- The decode cursor never moves backward in `dOnOff`. -/
theorem dOnOff_mono {d : List Nat} {flags : Nat}
    {st st' : HueLightUpdateMessage × Nat} (h : dOnOff d flags st = .ok st') :
    st.2 ≤ st'.2 := by
  unfold dOnOff at h
  by_cases hf : flags &&& FLAG_ON_OFF ≠ 0
  · rw [if_pos hf] at h
    rcases hv : getU8 d st.2 with e | v
    · rw [hv] at h
      simp at h
    · rw [hv, ok_bind] at h
      injection h with h
      rw [← h]
      exact Nat.le_succ st.2
  · rw [if_neg hf] at h
    injection h with h
    rw [← h]

/-- The decode cursor never moves backward in `dBrightness`. -/
theorem dBrightness_mono {d : List Nat} {flags : Nat}
    {st st' : HueLightUpdateMessage × Nat} (h : dBrightness d flags st = .ok st') :
    st.2 ≤ st'.2 := by
  unfold dBrightness at h
  by_cases hf : flags &&& FLAG_BRIGHTNESS ≠ 0
  · rw [if_pos hf] at h
    rcases hv : getU8 d st.2 with e | v
    · rw [hv] at h
      simp at h
    · rw [hv, ok_bind] at h
      injection h with h
      rw [← h]
      exact Nat.le_succ st.2
  · rw [if_neg hf] at h
    injection h with h
    rw [← h]

/-- The decode cursor never moves backward in `dEffect`. -/
theorem dEffect_mono {d : List Nat} {flags : Nat}
    {st st' : HueLightUpdateMessage × Nat} (h : dEffect d flags st = .ok st') :
    st.2 ≤ st'.2 := by
  unfold dEffect at h
  by_cases hf : flags &&& FLAG_EFFECT ≠ 0
  · rw [if_pos hf] at h
    rcases hv : getU8 d st.2 with e | v
    · rw [hv] at h
      simp at h
    · rw [hv, ok_bind] at h
      injection h with h
      rw [← h]
      exact Nat.le_succ st.2
  · rw [if_neg hf] at h
    injection h with h
    rw [← h]

/-- The decode cursor never moves backward in `dSpeed`. -/
theorem dSpeed_mono {d : List Nat} {flags : Nat}
    {st st' : HueLightUpdateMessage × Nat} (h : dSpeed d flags st = .ok st') :
    st.2 ≤ st'.2 := by
  unfold dSpeed at h
  by_cases hf : flags &&& FLAG_EFFECT_SPEED ≠ 0
  · rw [if_pos hf] at h
    rcases hv : getU8 d st.2 with e | v
    · rw [hv] at h
      simp at h
    · rw [hv, ok_bind] at h
      injection h with h
      rw [← h]
      exact Nat.le_succ st.2
  · rw [if_neg hf] at h
    injection h with h
    rw [← h]

/-- The decode cursor never moves backward in `dMired`. -/
theorem dMired_mono {d : List Nat} {flags : Nat}
    {st st' : HueLightUpdateMessage × Nat} (h : dMired d flags st = .ok st') :
    st.2 ≤ st'.2 := by
  unfold dMired at h
  by_cases hf : flags &&& FLAG_COLOR_MIRED ≠ 0
  · rw [if_pos hf] at h
    rcases hv : getU16 d st.2 with e | v
    · rw [hv] at h
      simp at h
    · rw [hv, ok_bind] at h
      injection h with h
      rw [← h]
      exact Nat.le_add_right st.2 2
  · rw [if_neg hf] at h
    injection h with h
    rw [← h]

/-- The decode cursor never moves backward in `dTransition`. -/
theorem dTransition_mono {d : List Nat} {flags : Nat}
    {st st' : HueLightUpdateMessage × Nat} (h : dTransition d flags st = .ok st') :
    st.2 ≤ st'.2 := by
  unfold dTransition at h
  by_cases hf : flags &&& FLAG_TRANSITION_TIME ≠ 0
  · rw [if_pos hf] at h
    rcases hv : getU16 d st.2 with e | v
    · rw [hv] at h
      simp at h
    · rw [hv, ok_bind] at h
      injection h with h
      rw [← h]
      exact Nat.le_add_right st.2 2
  · rw [if_neg hf] at h
    injection h with h
    rw [← h]

/-- The decode cursor never moves backward in `dXY`. -/
theorem dXY_mono {d : List Nat} {flags : Nat}
    {st st' : HueLightUpdateMessage × Nat} (h : dXY d flags st = .ok st') :
    st.2 ≤ st'.2 := by
  unfold dXY at h
  by_cases hf : flags &&& FLAG_COLOR_XY ≠ 0
  · rw [if_pos hf] at h
    rcases hv : getU16 d st.2 with e | v
    · rw [hv] at h
      simp at h
    · rw [hv, ok_bind] at h
      rcases hw : getU16 d (st.2 + 2) with e | w
      · rw [hw] at h
        simp at h
      · rw [hw, ok_bind] at h
        injection h with h
        rw [← h]
        exact Nat.le_add_right st.2 4
  · rw [if_neg hf] at h
    injection h with h
    rw [← h]

/-- The decode cursor never moves backward in `dParams`. -/
theorem dParams_mono {d : List Nat} {flags : Nat}
    {st st' : HueLightUpdateMessage × Nat} (h : dParams d flags st = .ok st') :
    st.2 ≤ st'.2 := by
  unfold dParams at h
  by_cases hf : flags &&& FLAG_GRADIENT_PARAMS ≠ 0
  · rw [if_pos hf] at h
    rcases hv : getU8 d st.2 with e | v
    · rw [hv] at h
      simp at h
    · rw [hv, ok_bind] at h
      rcases hw : getU8 d (st.2 + 1) with e | w
      · rw [hw] at h
        simp at h
      · rw [hw, ok_bind] at h
        injection h with h
        rw [← h]
        exact Nat.le_add_right st.2 2
  · rw [if_neg hf] at h
    injection h with h
    rw [← h]

/-- The decode cursor never moves backward in `dGradient`. -/
theorem dGradient_mono {d : List Nat} {flags : Nat}
    {st st' : HueLightUpdateMessage × Nat} (h : dGradient d flags st = .ok st') :
    st.2 ≤ st'.2 := by
  unfold dGradient at h
  by_cases hf : flags &&& FLAG_GRADIENT_COLORS ≠ 0
  · rw [if_pos hf] at h
    rcases hv : getU8 d st.2 with e | size
    · rw [hv] at h
      simp at h
    · rw [hv, ok_bind] at h
      by_cases h4 : size < 4
      · rw [if_pos h4] at h
        simp at h
      · rw [if_neg h4] at h
        by_cases hb : st.2 + size + 1 > d.length
        · rw [if_pos hb] at h
          simp at h
        · rw [if_neg hb] at h
          rcases h1 : getU8 d (st.2 + 1) with e | cb
          · rw [h1] at h
            simp at h
          · rw [h1, ok_bind] at h
            rcases h2 : getU8 d (st.2 + 2) with e | sb
            · rw [h2] at h
              simp at h
            · rw [h2, ok_bind] at h
              by_cases hc : st.2 + 5 + cb >>> 4 * 3 > st.2 + size + 1
              · rw [if_pos hc] at h
                simp at h
              · rw [if_neg hc] at h
                rcases h3 : readColors d (st.2 + 5) (cb >>> 4) with e | cs
                · rw [h3] at h
                  simp at h
                · rw [h3, ok_bind] at h
                  injection h with h
                  rw [← h]
                  exact (by omega : st.2 ≤ st.2 + size + 1)
  · rw [if_neg hf] at h
    injection h with h
    rw [← h]

/-- C9: the decoder ignores every flag bit above bit 8: decoding any buffer
(first byte a real byte value) equals decoding the same buffer with bits
9..15 of the flag word cleared — the second flag byte masked to its lowest
bit — so setting unassigned bits neither causes a decode error nor changes
the decoded message. -/
theorem fromBytes_ignores_high_flag_bits (b0 b1 : Nat) (rest : List Nat) :
    HueLightUpdateMessage.fromBytes (b0 :: b1 :: rest) =
      HueLightUpdateMessage.fromBytes (b0 :: (b1 &&& 1) :: rest) := by
  have e1 : getU16 (b0 :: b1 :: rest) 0 = .ok (b0 + 256 * b1) := by
    simpa using getU16_at [] b0 b1 rest
  have e2 : getU16 (b0 :: (b1 &&& 1) :: rest) 0 = .ok (b0 + 256 * (b1 &&& 1)) := by
    simpa using getU16_at [] b0 (b1 &&& 1) rest
  have hmod : (b0 + 256 * b1) % 512 = (b0 + 256 * (b1 &&& 1)) % 512 := by
    rw [Nat.and_one_is_mod]
    omega
  have hmask : ∀ k, k < 9 →
      (b0 + 256 * b1) &&& 2 ^ k = (b0 + 256 * (b1 &&& 1)) &&& 2 ^ k := by
    intro k hk
    rw [← and_mask_mod_512 (b0 + 256 * b1) k hk,
      ← and_mask_mod_512 (b0 + 256 * (b1 &&& 1)) k hk, hmod]
  have m0 : (b0 + 256 * b1) &&& FLAG_ON_OFF =
      (b0 + 256 * (b1 &&& 1)) &&& FLAG_ON_OFF := by
    simpa [FLAG_ON_OFF] using hmask 0 (by norm_num)
  have m1 : (b0 + 256 * b1) &&& FLAG_BRIGHTNESS =
      (b0 + 256 * (b1 &&& 1)) &&& FLAG_BRIGHTNESS := by
    simpa [FLAG_BRIGHTNESS, show (2 : ℕ) ^ 1 = 2 from by norm_num]
      using hmask 1 (by norm_num)
  have m2 : (b0 + 256 * b1) &&& FLAG_COLOR_MIRED =
      (b0 + 256 * (b1 &&& 1)) &&& FLAG_COLOR_MIRED := by
    simpa [FLAG_COLOR_MIRED, show (2 : ℕ) ^ 2 = 4 from by norm_num]
      using hmask 2 (by norm_num)
  have m3 : (b0 + 256 * b1) &&& FLAG_COLOR_XY =
      (b0 + 256 * (b1 &&& 1)) &&& FLAG_COLOR_XY := by
    simpa [FLAG_COLOR_XY, show (2 : ℕ) ^ 3 = 8 from by norm_num]
      using hmask 3 (by norm_num)
  have m4 : (b0 + 256 * b1) &&& FLAG_TRANSITION_TIME =
      (b0 + 256 * (b1 &&& 1)) &&& FLAG_TRANSITION_TIME := by
    simpa [FLAG_TRANSITION_TIME, show (2 : ℕ) ^ 4 = 16 from by norm_num]
      using hmask 4 (by norm_num)
  have m5 : (b0 + 256 * b1) &&& FLAG_EFFECT =
      (b0 + 256 * (b1 &&& 1)) &&& FLAG_EFFECT := by
    simpa [FLAG_EFFECT, show (2 : ℕ) ^ 5 = 32 from by norm_num]
      using hmask 5 (by norm_num)
  have m6 : (b0 + 256 * b1) &&& FLAG_GRADIENT_PARAMS =
      (b0 + 256 * (b1 &&& 1)) &&& FLAG_GRADIENT_PARAMS := by
    simpa [FLAG_GRADIENT_PARAMS, show (2 : ℕ) ^ 6 = 64 from by norm_num]
      using hmask 6 (by norm_num)
  have m7 : (b0 + 256 * b1) &&& FLAG_EFFECT_SPEED =
      (b0 + 256 * (b1 &&& 1)) &&& FLAG_EFFECT_SPEED := by
    simpa [FLAG_EFFECT_SPEED, show (2 : ℕ) ^ 7 = 128 from by norm_num]
      using hmask 7 (by norm_num)
  have m8 : (b0 + 256 * b1) &&& FLAG_GRADIENT_COLORS =
      (b0 + 256 * (b1 &&& 1)) &&& FLAG_GRADIENT_COLORS := by
    simpa [FLAG_GRADIENT_COLORS, show (2 : ℕ) ^ 8 = 256 from by norm_num]
      using hmask 8 (by norm_num)
  unfold HueLightUpdateMessage.fromBytes
  rw [e1, e2, ok_bind, ok_bind]
  simp only [dOnOff_congr m0, dBrightness_congr m1, dMired_congr m2, dXY_congr m3,
    dTransition_congr m4, dEffect_congr m5, dGradient_congr m8, dSpeed_congr m7,
    dParams_congr m6]
  rw [dOnOff_tail2 b0 b1 b0 (b1 &&& 1) rest (b0 + 256 * (b1 &&& 1)) ({}, 2) (le_refl 2)]
  rcases h1 : dOnOff (b0 :: (b1 &&& 1) :: rest) (b0 + 256 * (b1 &&& 1)) ({}, 2) with e | st1
  · rfl
  · rw [ok_bind, ok_bind]
    have hb1 : 2 ≤ st1.2 := dOnOff_mono h1
    rw [dBrightness_tail2 b0 b1 b0 (b1 &&& 1) rest (b0 + 256 * (b1 &&& 1)) st1 hb1]
    rcases h2 : dBrightness (b0 :: (b1 &&& 1) :: rest) (b0 + 256 * (b1 &&& 1)) st1 with e | st2
    · rfl
    · rw [ok_bind, ok_bind]
      have hb2 : 2 ≤ st2.2 := le_trans hb1 (dBrightness_mono h2)
      rw [dMired_tail2 b0 b1 b0 (b1 &&& 1) rest (b0 + 256 * (b1 &&& 1)) st2 hb2]
      rcases h3 : dMired (b0 :: (b1 &&& 1) :: rest) (b0 + 256 * (b1 &&& 1)) st2 with e | st3
      · rfl
      · rw [ok_bind, ok_bind]
        have hb3 : 2 ≤ st3.2 := le_trans hb2 (dMired_mono h3)
        rw [dXY_tail2 b0 b1 b0 (b1 &&& 1) rest (b0 + 256 * (b1 &&& 1)) st3 hb3]
        rcases h4 : dXY (b0 :: (b1 &&& 1) :: rest) (b0 + 256 * (b1 &&& 1)) st3 with e | st4
        · rfl
        · rw [ok_bind, ok_bind]
          have hb4 : 2 ≤ st4.2 := le_trans hb3 (dXY_mono h4)
          rw [dTransition_tail2 b0 b1 b0 (b1 &&& 1) rest (b0 + 256 * (b1 &&& 1)) st4 hb4]
          rcases h5 : dTransition (b0 :: (b1 &&& 1) :: rest) (b0 + 256 * (b1 &&& 1)) st4 with e | st5
          · rfl
          · rw [ok_bind, ok_bind]
            have hb5 : 2 ≤ st5.2 := le_trans hb4 (dTransition_mono h5)
            rw [dEffect_tail2 b0 b1 b0 (b1 &&& 1) rest (b0 + 256 * (b1 &&& 1)) st5 hb5]
            rcases h6 : dEffect (b0 :: (b1 &&& 1) :: rest) (b0 + 256 * (b1 &&& 1)) st5 with e | st6
            · rfl
            · rw [ok_bind, ok_bind]
              have hb6 : 2 ≤ st6.2 := le_trans hb5 (dEffect_mono h6)
              rw [dGradient_tail2 b0 b1 b0 (b1 &&& 1) rest (b0 + 256 * (b1 &&& 1)) st6 hb6]
              rcases h7 : dGradient (b0 :: (b1 &&& 1) :: rest) (b0 + 256 * (b1 &&& 1)) st6 with e | st7
              · rfl
              · rw [ok_bind, ok_bind]
                have hb7 : 2 ≤ st7.2 := le_trans hb6 (dGradient_mono h7)
                rw [dSpeed_tail2 b0 b1 b0 (b1 &&& 1) rest (b0 + 256 * (b1 &&& 1)) st7 hb7]
                rcases h8 : dSpeed (b0 :: (b1 &&& 1) :: rest) (b0 + 256 * (b1 &&& 1)) st7 with e | st8
                · rfl
                · rw [ok_bind, ok_bind]
                  have hb8 : 2 ≤ st8.2 := le_trans hb7 (dSpeed_mono h8)
                  rw [dParams_tail2 b0 b1 b0 (b1 &&& 1) rest (b0 + 256 * (b1 &&& 1)) st8 hb8]



/-! ## Decoder offset accounting (for the truncation claim) -/

/-- A successful 16-bit read implies both byte indices are in bounds. -/
theorem getU16_ok_bound {d : List Nat} {i v : Nat} (h : getU16 d i = .ok v) :
    i + 1 < d.length := by
  unfold getU16 at h
  rcases h0 : getU8 d i with e | a
  · rw [h0] at h
    simp at h
  · rw [h0, ok_bind] at h
    rcases h1 : getU8 d (i + 1) with e | b
    · rw [h1] at h
      simp at h
    · exact (getU8_eq_ok h1).1

/-- Offset accounting and frame conditions for `dOnOff`: on success the
cursor advances by the field's width exactly when the field was set, stays
within bounds, and no other field changes. -/
theorem dOnOff_ok {d : List Nat} {flags : Nat} {msg msg' : HueLightUpdateMessage}
    {off off' : Nat} (h : dOnOff d flags (msg, off) = .ok (msg', off'))
    (hnone : msg.isOn = none) :
    off + (if msg'.isOn.isSome then 1 else 0) = off' ∧
    (off ≤ d.length → off' ≤ d.length) ∧
    msg'.brightness = msg.brightness ∧
    msg'.colorTemp = msg.colorTemp ∧
    msg'.colorXY = msg.colorXY ∧
    msg'.transitionTime = msg.transitionTime ∧
    msg'.effect = msg.effect ∧
    msg'.effectSpeed = msg.effectSpeed ∧
    msg'.gradient = msg.gradient ∧
    msg'.gradientParams = msg.gradientParams := by
  unfold dOnOff at h
  by_cases hf : flags &&& FLAG_ON_OFF ≠ 0
  · rw [if_pos hf] at h
    rcases hv : getU8 d off with e | v
    · rw [hv] at h
      simp at h
    · obtain ⟨hlt, -⟩ := getU8_eq_ok hv
      rw [hv, ok_bind] at h
      injection h with h
      injection h with hmsg hoff
      have hoff2 : off + 1 = off' := hoff
      subst hmsg
      refine ⟨hoff2, fun hb => by omega, rfl, rfl, rfl, rfl, rfl, rfl, rfl, rfl⟩
  · rw [if_neg hf] at h
    injection h with h
    injection h with hmsg hoff
    subst hmsg
    subst hoff
    refine ⟨by simp [hnone], fun hb => hb, rfl, rfl, rfl, rfl, rfl, rfl, rfl, rfl⟩

/-- Offset accounting and frame conditions for `dBrightness`: on success the
cursor advances by the field's width exactly when the field was set, stays
within bounds, and no other field changes. -/
theorem dBrightness_ok {d : List Nat} {flags : Nat} {msg msg' : HueLightUpdateMessage}
    {off off' : Nat} (h : dBrightness d flags (msg, off) = .ok (msg', off'))
    (hnone : msg.brightness = none) :
    off + (if msg'.brightness.isSome then 1 else 0) = off' ∧
    (off ≤ d.length → off' ≤ d.length) ∧
    msg'.isOn = msg.isOn ∧
    msg'.colorTemp = msg.colorTemp ∧
    msg'.colorXY = msg.colorXY ∧
    msg'.transitionTime = msg.transitionTime ∧
    msg'.effect = msg.effect ∧
    msg'.effectSpeed = msg.effectSpeed ∧
    msg'.gradient = msg.gradient ∧
    msg'.gradientParams = msg.gradientParams := by
  unfold dBrightness at h
  by_cases hf : flags &&& FLAG_BRIGHTNESS ≠ 0
  · rw [if_pos hf] at h
    rcases hv : getU8 d off with e | v
    · rw [hv] at h
      simp at h
    · obtain ⟨hlt, -⟩ := getU8_eq_ok hv
      rw [hv, ok_bind] at h
      injection h with h
      injection h with hmsg hoff
      have hoff2 : off + 1 = off' := hoff
      subst hmsg
      refine ⟨hoff2, fun hb => by omega, rfl, rfl, rfl, rfl, rfl, rfl, rfl, rfl⟩
  · rw [if_neg hf] at h
    injection h with h
    injection h with hmsg hoff
    subst hmsg
    subst hoff
    refine ⟨by simp [hnone], fun hb => hb, rfl, rfl, rfl, rfl, rfl, rfl, rfl, rfl⟩

/-- Offset accounting and frame conditions for `dMired`: on success the
cursor advances by the field's width exactly when the field was set, stays
within bounds, and no other field changes. -/
theorem dMired_ok {d : List Nat} {flags : Nat} {msg msg' : HueLightUpdateMessage}
    {off off' : Nat} (h : dMired d flags (msg, off) = .ok (msg', off'))
    (hnone : msg.colorTemp = none) :
    off + (if msg'.colorTemp.isSome then 2 else 0) = off' ∧
    (off ≤ d.length → off' ≤ d.length) ∧
    msg'.isOn = msg.isOn ∧
    msg'.brightness = msg.brightness ∧
    msg'.colorXY = msg.colorXY ∧
    msg'.transitionTime = msg.transitionTime ∧
    msg'.effect = msg.effect ∧
    msg'.effectSpeed = msg.effectSpeed ∧
    msg'.gradient = msg.gradient ∧
    msg'.gradientParams = msg.gradientParams := by
  unfold dMired at h
  by_cases hf : flags &&& FLAG_COLOR_MIRED ≠ 0
  · rw [if_pos hf] at h
    rcases hv : getU16 d off with e | v
    · rw [hv] at h
      simp at h
    · have hlt := getU16_ok_bound hv
      rw [hv, ok_bind] at h
      injection h with h
      injection h with hmsg hoff
      have hoff2 : off + 2 = off' := hoff
      subst hmsg
      refine ⟨hoff2, fun hb => by omega, rfl, rfl, rfl, rfl, rfl, rfl, rfl, rfl⟩
  · rw [if_neg hf] at h
    injection h with h
    injection h with hmsg hoff
    subst hmsg
    subst hoff
    refine ⟨by simp [hnone], fun hb => hb, rfl, rfl, rfl, rfl, rfl, rfl, rfl, rfl⟩

/-- Offset accounting and frame conditions for `dTransition`: on success the
cursor advances by the field's width exactly when the field was set, stays
within bounds, and no other field changes. -/
theorem dTransition_ok {d : List Nat} {flags : Nat} {msg msg' : HueLightUpdateMessage}
    {off off' : Nat} (h : dTransition d flags (msg, off) = .ok (msg', off'))
    (hnone : msg.transitionTime = none) :
    off + (if msg'.transitionTime.isSome then 2 else 0) = off' ∧
    (off ≤ d.length → off' ≤ d.length) ∧
    msg'.isOn = msg.isOn ∧
    msg'.brightness = msg.brightness ∧
    msg'.colorTemp = msg.colorTemp ∧
    msg'.colorXY = msg.colorXY ∧
    msg'.effect = msg.effect ∧
    msg'.effectSpeed = msg.effectSpeed ∧
    msg'.gradient = msg.gradient ∧
    msg'.gradientParams = msg.gradientParams := by
  unfold dTransition at h
  by_cases hf : flags &&& FLAG_TRANSITION_TIME ≠ 0
  · rw [if_pos hf] at h
    rcases hv : getU16 d off with e | v
    · rw [hv] at h
      simp at h
    · have hlt := getU16_ok_bound hv
      rw [hv, ok_bind] at h
      injection h with h
      injection h with hmsg hoff
      have hoff2 : off + 2 = off' := hoff
      subst hmsg
      refine ⟨hoff2, fun hb => by omega, rfl, rfl, rfl, rfl, rfl, rfl, rfl, rfl⟩
  · rw [if_neg hf] at h
    injection h with h
    injection h with hmsg hoff
    subst hmsg
    subst hoff
    refine ⟨by simp [hnone], fun hb => hb, rfl, rfl, rfl, rfl, rfl, rfl, rfl, rfl⟩

/-- Offset accounting and frame conditions for `dEffect`: on success the
cursor advances by the field's width exactly when the field was set, stays
within bounds, and no other field changes. -/
theorem dEffect_ok {d : List Nat} {flags : Nat} {msg msg' : HueLightUpdateMessage}
    {off off' : Nat} (h : dEffect d flags (msg, off) = .ok (msg', off'))
    (hnone : msg.effect = none) :
    off + (if msg'.effect.isSome then 1 else 0) = off' ∧
    (off ≤ d.length → off' ≤ d.length) ∧
    msg'.isOn = msg.isOn ∧
    msg'.brightness = msg.brightness ∧
    msg'.colorTemp = msg.colorTemp ∧
    msg'.colorXY = msg.colorXY ∧
    msg'.transitionTime = msg.transitionTime ∧
    msg'.effectSpeed = msg.effectSpeed ∧
    msg'.gradient = msg.gradient ∧
    msg'.gradientParams = msg.gradientParams := by
  unfold dEffect at h
  by_cases hf : flags &&& FLAG_EFFECT ≠ 0
  · rw [if_pos hf] at h
    rcases hv : getU8 d off with e | v
    · rw [hv] at h
      simp at h
    · obtain ⟨hlt, -⟩ := getU8_eq_ok hv
      rw [hv, ok_bind] at h
      injection h with h
      injection h with hmsg hoff
      have hoff2 : off + 1 = off' := hoff
      subst hmsg
      refine ⟨hoff2, fun hb => by omega, rfl, rfl, rfl, rfl, rfl, rfl, rfl, rfl⟩
  · rw [if_neg hf] at h
    injection h with h
    injection h with hmsg hoff
    subst hmsg
    subst hoff
    refine ⟨by simp [hnone], fun hb => hb, rfl, rfl, rfl, rfl, rfl, rfl, rfl, rfl⟩

/-- Offset accounting and frame conditions for `dSpeed`: on success the
cursor advances by the field's width exactly when the field was set, stays
within bounds, and no other field changes. -/
theorem dSpeed_ok {d : List Nat} {flags : Nat} {msg msg' : HueLightUpdateMessage}
    {off off' : Nat} (h : dSpeed d flags (msg, off) = .ok (msg', off'))
    (hnone : msg.effectSpeed = none) :
    off + (if msg'.effectSpeed.isSome then 1 else 0) = off' ∧
    (off ≤ d.length → off' ≤ d.length) ∧
    msg'.isOn = msg.isOn ∧
    msg'.brightness = msg.brightness ∧
    msg'.colorTemp = msg.colorTemp ∧
    msg'.colorXY = msg.colorXY ∧
    msg'.transitionTime = msg.transitionTime ∧
    msg'.effect = msg.effect ∧
    msg'.gradient = msg.gradient ∧
    msg'.gradientParams = msg.gradientParams := by
  unfold dSpeed at h
  by_cases hf : flags &&& FLAG_EFFECT_SPEED ≠ 0
  · rw [if_pos hf] at h
    rcases hv : getU8 d off with e | v
    · rw [hv] at h
      simp at h
    · obtain ⟨hlt, -⟩ := getU8_eq_ok hv
      rw [hv, ok_bind] at h
      injection h with h
      injection h with hmsg hoff
      have hoff2 : off + 1 = off' := hoff
      subst hmsg
      refine ⟨hoff2, fun hb => by omega, rfl, rfl, rfl, rfl, rfl, rfl, rfl, rfl⟩
  · rw [if_neg hf] at h
    injection h with h
    injection h with hmsg hoff
    subst hmsg
    subst hoff
    refine ⟨by simp [hnone], fun hb => hb, rfl, rfl, rfl, rfl, rfl, rfl, rfl, rfl⟩

/-- Offset accounting and frame conditions for `dXY`. -/
theorem dXY_ok {d : List Nat} {flags : Nat} {msg msg' : HueLightUpdateMessage}
    {off off' : Nat} (h : dXY d flags (msg, off) = .ok (msg', off'))
    (hnone : msg.colorXY = none) :
    off + (if msg'.colorXY.isSome then 4 else 0) = off' ∧
    (off ≤ d.length → off' ≤ d.length) ∧
    msg'.isOn = msg.isOn ∧
    msg'.brightness = msg.brightness ∧
    msg'.colorTemp = msg.colorTemp ∧
    msg'.transitionTime = msg.transitionTime ∧
    msg'.effect = msg.effect ∧
    msg'.effectSpeed = msg.effectSpeed ∧
    msg'.gradient = msg.gradient ∧
    msg'.gradientParams = msg.gradientParams := by
  unfold dXY at h
  by_cases hf : flags &&& FLAG_COLOR_XY ≠ 0
  · rw [if_pos hf] at h
    rcases hv : getU16 d off with e | v
    · rw [hv] at h
      simp at h
    · rw [hv, ok_bind] at h
      rcases hw : getU16 d (off + 2) with e | w
      · rw [hw] at h
        simp at h
      · have hlt := getU16_ok_bound hw
        rw [hw, ok_bind] at h
        injection h with h
        injection h with hmsg hoff
        have hoff2 : off + 4 = off' := hoff
        subst hmsg
        refine ⟨hoff2, fun hb => by omega, rfl, rfl, rfl, rfl, rfl, rfl, rfl, rfl⟩
  · rw [if_neg hf] at h
    injection h with h
    injection h with hmsg hoff
    subst hmsg
    subst hoff
    refine ⟨by simp [hnone], fun hb => hb, rfl, rfl, rfl, rfl, rfl, rfl, rfl, rfl⟩

/-- Offset accounting and frame conditions for `dParams`. -/
theorem dParams_ok {d : List Nat} {flags : Nat} {msg msg' : HueLightUpdateMessage}
    {off off' : Nat} (h : dParams d flags (msg, off) = .ok (msg', off'))
    (hnone : msg.gradientParams = none) :
    off + (if msg'.gradientParams.isSome then 2 else 0) = off' ∧
    (off ≤ d.length → off' ≤ d.length) ∧
    msg'.isOn = msg.isOn ∧
    msg'.brightness = msg.brightness ∧
    msg'.colorTemp = msg.colorTemp ∧
    msg'.colorXY = msg.colorXY ∧
    msg'.transitionTime = msg.transitionTime ∧
    msg'.effect = msg.effect ∧
    msg'.effectSpeed = msg.effectSpeed ∧
    msg'.gradient = msg.gradient := by
  unfold dParams at h
  by_cases hf : flags &&& FLAG_GRADIENT_PARAMS ≠ 0
  · rw [if_pos hf] at h
    rcases hv : getU8 d off with e | v
    · rw [hv] at h
      simp at h
    · rw [hv, ok_bind] at h
      rcases hw : getU8 d (off + 1) with e | w
      · rw [hw] at h
        simp at h
      · obtain ⟨hlt, -⟩ := getU8_eq_ok hw
        rw [hw, ok_bind] at h
        injection h with h
        injection h with hmsg hoff
        have hoff2 : off + 2 = off' := hoff
        subst hmsg
        refine ⟨hoff2, fun hb => by omega, rfl, rfl, rfl, rfl, rfl, rfl, rfl, rfl⟩
  · rw [if_neg hf] at h
    injection h with h
    injection h with hmsg hoff
    subst hmsg
    subst hoff
    refine ⟨by simp [hnone], fun hb => hb, rfl, rfl, rfl, rfl, rfl, rfl, rfl, rfl⟩

/-- Offset accounting and frame conditions for `dGradient`: on success the
cursor advances by at least the gradient block's wire footprint
`5 + 3 × colorCount` and stays within bounds. -/
theorem dGradient_ok {d : List Nat} {flags : Nat} {msg msg' : HueLightUpdateMessage}
    {off off' : Nat} (h : dGradient d flags (msg, off) = .ok (msg', off'))
    (hnone : msg.gradient = none) :
    off + (match msg'.gradient with
           | none => 0
           | some g => 5 + 3 * g.colors.length) ≤ off' ∧
    (off ≤ d.length → off' ≤ d.length) ∧
    msg'.isOn = msg.isOn ∧
    msg'.brightness = msg.brightness ∧
    msg'.colorTemp = msg.colorTemp ∧
    msg'.colorXY = msg.colorXY ∧
    msg'.transitionTime = msg.transitionTime ∧
    msg'.effect = msg.effect ∧
    msg'.effectSpeed = msg.effectSpeed ∧
    msg'.gradientParams = msg.gradientParams := by
  unfold dGradient at h
  by_cases hf : flags &&& FLAG_GRADIENT_COLORS ≠ 0
  · rw [if_pos hf] at h
    rcases hv : getU8 d off with e | size
    · rw [hv] at h
      simp at h
    · rw [hv, ok_bind] at h
      by_cases h4 : size < 4
      · rw [if_pos h4] at h
        simp at h
      · rw [if_neg h4] at h
        by_cases hb : off + size + 1 > d.length
        · rw [if_pos hb] at h
          simp at h
        · rw [if_neg hb] at h
          rcases h1 : getU8 d (off + 1) with e | cb
          · rw [h1] at h
            simp at h
          · rw [h1, ok_bind] at h
            rcases h2 : getU8 d (off + 2) with e | sb
            · rw [h2] at h
              simp at h
            · rw [h2, ok_bind] at h
              by_cases hc : off + 5 + cb >>> 4 * 3 > off + size + 1
              · rw [if_pos hc] at h
                simp at h
              · rw [if_neg hc] at h
                rcases h3 : readColors d (off + 5) (cb >>> 4) with e | cs
                · rw [h3] at h
                  simp at h
                · rw [h3, ok_bind] at h
                  injection h with h
                  injection h with hmsg hoff
                  have hoff2 : off + size + 1 = off' := hoff
                  have hlen := readColors_length h3
                  subst hmsg
                  refine ⟨?_, fun hh => by omega, rfl, rfl, rfl, rfl, rfl, rfl, rfl, rfl⟩
                  show off + (5 + 3 * cs.length) ≤ off'
                  omega
  · rw [if_neg hf] at h
    injection h with h
    injection h with hmsg hoff
    subst hmsg
    subst hoff
    refine ⟨by simp [hnone], fun hh => hh, rfl, rfl, rfl, rfl, rfl, rfl, rfl, rfl⟩

/-! ## Claim C3: truncated buffers -/

/-- C3 counterexample: buffer `00 01 0a` is truncated (its flag word declares
a gradient block that cannot fit), yet decoding fails with a format error
(`extends beyond end of data`), not a length error. -/
theorem truncated_gradient_formatError_cex :
    HueLightUpdateMessage.fromBytes [0x00, 0x01, 0x0a] =
      .error (.format .beyondEnd) ∧
    (Err.format .beyondEnd ≠ Err.length) := by
  constructor
  · with_unfolding_all rfl
  · decide

/-- C3 amended: decoding a buffer of fewer than 2 bytes fails with a length
error, and decoding succeeds only when the buffer holds every byte the
decoded message's flag-declared fields require (`encodedLength`), so any
buffer shorter than its declared fields require fails — with some error, a
format error in the gradient-overrun case — and by construction no partially
populated message is ever returned. -/
theorem fromBytes_truncated_fails (d : List Nat) :
    (d.length < 2 → HueLightUpdateMessage.fromBytes d = .error .length) ∧
    (∀ m : HueLightUpdateMessage, HueLightUpdateMessage.fromBytes d = .ok m →
      encodedLength m ≤ d.length) := by
  constructor
  · intro hlen
    have h16 : getU16 d 0 = .error .length := by
      unfold getU16
      rcases h0 : getU8 d 0 with e | a
      · obtain ⟨-, he⟩ := getU8_eq_error_iff.mp h0
        rw [error_bind, he]
      · have h0' := getU8_eq_ok h0
        have h1 : getU8 d 1 = .error .length :=
          getU8_eq_error_iff.mpr ⟨by omega, rfl⟩
        rw [ok_bind, h1, error_bind]
    unfold HueLightUpdateMessage.fromBytes
    rw [h16, error_bind]
  · intro m h
    unfold HueLightUpdateMessage.fromBytes at h
    obtain ⟨flags, hfl, h⟩ := bind_eq_ok_iff.mp h
    have hd2 : 2 ≤ d.length := getU16_ok_bound hfl
    obtain ⟨st1, hs1, h⟩ := bind_eq_ok_iff.mp h
    obtain ⟨msg1, off1⟩ := st1
    obtain ⟨st2, hs2, h⟩ := bind_eq_ok_iff.mp h
    obtain ⟨msg2, off2⟩ := st2
    obtain ⟨st3, hs3, h⟩ := bind_eq_ok_iff.mp h
    obtain ⟨msg3, off3⟩ := st3
    obtain ⟨st4, hs4, h⟩ := bind_eq_ok_iff.mp h
    obtain ⟨msg4, off4⟩ := st4
    obtain ⟨st5, hs5, h⟩ := bind_eq_ok_iff.mp h
    obtain ⟨msg5, off5⟩ := st5
    obtain ⟨st6, hs6, h⟩ := bind_eq_ok_iff.mp h
    obtain ⟨msg6, off6⟩ := st6
    obtain ⟨st7, hs7, h⟩ := bind_eq_ok_iff.mp h
    obtain ⟨msg7, off7⟩ := st7
    obtain ⟨st8, hs8, h⟩ := bind_eq_ok_iff.mp h
    obtain ⟨msg8, off8⟩ := st8
    obtain ⟨st9, hs9, h⟩ := bind_eq_ok_iff.mp h
    obtain ⟨msg9, off9⟩ := st9
    obtain ⟨c1, b1, f1_brightness, f1_colorTemp, f1_colorXY, f1_transitionTime, f1_effect, f1_effectSpeed, f1_gradient, f1_gradientParams⟩ := dOnOff_ok hs1 rfl
    have n2 : msg1.brightness = none := by rw [f1_brightness]
    obtain ⟨c2, b2, f2_isOn, f2_colorTemp, f2_colorXY, f2_transitionTime, f2_effect, f2_effectSpeed, f2_gradient, f2_gradientParams⟩ := dBrightness_ok hs2 n2
    have n3 : msg2.colorTemp = none := by rw [f2_colorTemp, f1_colorTemp]
    obtain ⟨c3, b3, f3_isOn, f3_brightness, f3_colorXY, f3_transitionTime, f3_effect, f3_effectSpeed, f3_gradient, f3_gradientParams⟩ := dMired_ok hs3 n3
    have n4 : msg3.colorXY = none := by rw [f3_colorXY, f2_colorXY, f1_colorXY]
    obtain ⟨c4, b4, f4_isOn, f4_brightness, f4_colorTemp, f4_transitionTime, f4_effect, f4_effectSpeed, f4_gradient, f4_gradientParams⟩ := dXY_ok hs4 n4
    have n5 : msg4.transitionTime = none := by rw [f4_transitionTime, f3_transitionTime, f2_transitionTime, f1_transitionTime]
    obtain ⟨c5, b5, f5_isOn, f5_brightness, f5_colorTemp, f5_colorXY, f5_effect, f5_effectSpeed, f5_gradient, f5_gradientParams⟩ := dTransition_ok hs5 n5
    have n6 : msg5.effect = none := by rw [f5_effect, f4_effect, f3_effect, f2_effect, f1_effect]
    obtain ⟨c6, b6, f6_isOn, f6_brightness, f6_colorTemp, f6_colorXY, f6_transitionTime, f6_effectSpeed, f6_gradient, f6_gradientParams⟩ := dEffect_ok hs6 n6
    have n7 : msg6.gradient = none := by rw [f6_gradient, f5_gradient, f4_gradient, f3_gradient, f2_gradient, f1_gradient]
    obtain ⟨c7, b7, f7_isOn, f7_brightness, f7_colorTemp, f7_colorXY, f7_transitionTime, f7_effect, f7_effectSpeed, f7_gradientParams⟩ := dGradient_ok hs7 n7
    have n8 : msg7.effectSpeed = none := by rw [f7_effectSpeed, f6_effectSpeed, f5_effectSpeed, f4_effectSpeed, f3_effectSpeed, f2_effectSpeed, f1_effectSpeed]
    obtain ⟨c8, b8, f8_isOn, f8_brightness, f8_colorTemp, f8_colorXY, f8_transitionTime, f8_effect, f8_gradient, f8_gradientParams⟩ := dSpeed_ok hs8 n8
    have n9 : msg8.gradientParams = none := by rw [f8_gradientParams, f7_gradientParams, f6_gradientParams, f5_gradientParams, f4_gradientParams, f3_gradientParams, f2_gradientParams, f1_gradientParams]
    obtain ⟨c9, b9, f9_isOn, f9_brightness, f9_colorTemp, f9_colorXY, f9_transitionTime, f9_effect, f9_effectSpeed, f9_gradient⟩ := dParams_ok hs9 n9
    injection h with h
    have hm : msg9 = m := h
    subst hm
    have p_isOn : msg9.isOn = msg1.isOn := by rw [f9_isOn, f8_isOn, f7_isOn, f6_isOn, f5_isOn, f4_isOn, f3_isOn, f2_isOn]
    have p_brightness : msg9.brightness = msg2.brightness := by rw [f9_brightness, f8_brightness, f7_brightness, f6_brightness, f5_brightness, f4_brightness, f3_brightness]
    have p_colorTemp : msg9.colorTemp = msg3.colorTemp := by rw [f9_colorTemp, f8_colorTemp, f7_colorTemp, f6_colorTemp, f5_colorTemp, f4_colorTemp]
    have p_colorXY : msg9.colorXY = msg4.colorXY := by rw [f9_colorXY, f8_colorXY, f7_colorXY, f6_colorXY, f5_colorXY]
    have p_transitionTime : msg9.transitionTime = msg5.transitionTime := by rw [f9_transitionTime, f8_transitionTime, f7_transitionTime, f6_transitionTime]
    have p_effect : msg9.effect = msg6.effect := by rw [f9_effect, f8_effect, f7_effect]
    have p_effectSpeed : msg9.effectSpeed = msg8.effectSpeed := by rw [f9_effectSpeed]
    have p_gradient : msg9.gradient = msg7.gradient := by rw [f9_gradient, f8_gradient]
    have hb1 : off1 ≤ d.length := b1 hd2
    have hb2 : off2 ≤ d.length := b2 hb1
    have hb3 : off3 ≤ d.length := b3 hb2
    have hb4 : off4 ≤ d.length := b4 hb3
    have hb5 : off5 ≤ d.length := b5 hb4
    have hb6 : off6 ≤ d.length := b6 hb5
    have hb7 : off7 ≤ d.length := b7 hb6
    have hb8 : off8 ≤ d.length := b8 hb7
    have hb9 : off9 ≤ d.length := b9 hb8
    simp only [encodedLength]
    rw [p_isOn, p_brightness, p_colorTemp, p_colorXY, p_transitionTime,
      p_effect, p_gradient, p_effectSpeed]
    rcases hg : msg7.gradient with _ | g
    · rw [hg] at c7
      simp only [] at c7 ⊢
      omega
    · rw [hg] at c7
      simp only [] at c7 ⊢
      omega

/-- Witness for C3 (amended) at a one-byte buffer and at a decoded
message. -/
theorem fromBytes_truncated_fails_witness :
    HueLightUpdateMessage.fromBytes [7] = .error .length ∧
    encodedLength { brightness := some 77 } ≤ ([2, 0, 77] : List Nat).length :=
  ⟨(fromBytes_truncated_fails [7]).1 (by decide),
   (fromBytes_truncated_fails [2, 0, 77]).2 { brightness := some 77 }
     (by with_unfolding_all rfl)⟩


/-! ## Decoding an encoded buffer: per-field lemmas -/

/-- Extensionality for update messages. -/
theorem msg_ext {a b : HueLightUpdateMessage}
    (h1 : a.isOn = b.isOn) (h2 : a.brightness = b.brightness)
    (h3 : a.colorTemp = b.colorTemp) (h4 : a.colorXY = b.colorXY)
    (h5 : a.transitionTime = b.transitionTime) (h6 : a.effect = b.effect)
    (h7 : a.effectSpeed = b.effectSpeed) (h8 : a.gradient = b.gradient)
    (h9 : a.gradientParams = b.gradientParams) : a = b := by
  cases a
  cases b
  simp_all

/-- A byte read at `off + i` is a byte read at `i` of the dropped buffer. -/
theorem getU8_drop_eq (d : List Nat) (off i : Nat) :
    getU8 d (off + i) = getU8 (d.drop off) i := by
  unfold getU8
  by_cases h : off + i < d.length
  · rw [dif_pos h, dif_pos (by simp; omega)]
    congr 1
    rw [List.getElem_drop]
  · rw [dif_neg h, dif_neg (by simp; omega)]

/-- A 16-bit read at `off + i` is a 16-bit read at `i` of the dropped
buffer. -/
theorem getU16_drop_eq (d : List Nat) (off i : Nat) :
    getU16 d (off + i) = getU16 (d.drop off) i := by
  unfold getU16
  rw [getU8_drop_eq d off i, show off + i + 1 = off + (i + 1) from by omega,
    getU8_drop_eq d off (i + 1)]

/-- Reading the head byte of a nonempty buffer. -/
theorem getU8_cons (a : Nat) (l : List Nat) : getU8 (a :: l) 0 = .ok a := by
  simp [getU8]

/-- Reading the second byte of a buffer. -/
theorem getU8_cons1 (a b : Nat) (l : List Nat) : getU8 (a :: b :: l) 1 = .ok b := by
  simp [getU8]

/-- A 16-bit read at the head of a buffer. -/
theorem getU16_cons (a b : Nat) (l : List Nat) :
    getU16 (a :: b :: l) 0 = .ok (a + 256 * b) := by
  simp [getU16, getU8_cons, getU8_cons1]

/-- 16-bit stored values are 16-bit. -/
theorem jsU16_lt (q : ℚ) : jsU16 q < 65536 := by
  unfold jsU16
  have h1 : jsTrunc q % 65536 < 65536 := Int.emod_lt_of_pos _ (by norm_num)
  omega

/-- The flag word written by the encoder is below 2^9. -/
theorem encFlags_lt (m : HueLightUpdateMessage) : encFlags m < 512 := by
  have key : ∀ b1 b2 b3 b4 b5 b6 b7 b8 b9 : Bool,
      ((if b1 then 1 else 0) ||| (if b2 then 2 else 0) ||| (if b3 then 4 else 0) |||
       (if b4 then 8 else 0) ||| (if b5 then 16 else 0) ||| (if b6 then 32 else 0) |||
       (if b7 then 256 else 0) ||| (if b8 then 128 else 0) |||
       (if b9 then 64 else 0) : Nat) < 512 := by decide
  exact key m.isOn.isSome m.brightness.isSome m.colorTemp.isSome m.colorXY.isSome
    m.transitionTime.isSome m.effect.isSome m.gradient.isSome m.effectSpeed.isSome
    m.gradientParams.isSome

/-- Reading the flag word back from an encoded buffer. -/
theorem getU16_u16le (F : Nat) (hF : F < 65536) (rest : List Nat) :
    getU16 (u16le F ++ rest) 0 = .ok F := by
  show getU16 ((F % 256) :: (F / 256 % 256) :: rest) 0 = .ok F
  rw [getU16_cons]
  congr 1
  omega

/-- Extracting the `isOn` flag bit from the encoded flag word. -/
theorem encFlags_and_onOff (m : HueLightUpdateMessage) :
    encFlags m &&& FLAG_ON_OFF = if m.isOn.isSome then FLAG_ON_OFF else 0 := by
  have key : ∀ b1 b2 b3 b4 b5 b6 b7 b8 b9 : Bool,
      (((if b1 then 1 else 0) |||
       (if b2 then 2 else 0) |||
       (if b3 then 4 else 0) |||
       (if b4 then 8 else 0) |||
       (if b5 then 16 else 0) |||
       (if b6 then 32 else 0) |||
       (if b7 then 256 else 0) |||
       (if b8 then 128 else 0) |||
       (if b9 then 64 else 0) : Nat) &&&
        1) = if b1 then 1 else 0 := by decide
  exact key m.isOn.isSome m.brightness.isSome m.colorTemp.isSome m.colorXY.isSome
    m.transitionTime.isSome m.effect.isSome m.gradient.isSome m.effectSpeed.isSome
    m.gradientParams.isSome

/-- Extracting the `brightness` flag bit from the encoded flag word. -/
theorem encFlags_and_brightness (m : HueLightUpdateMessage) :
    encFlags m &&& FLAG_BRIGHTNESS = if m.brightness.isSome then FLAG_BRIGHTNESS else 0 := by
  have key : ∀ b1 b2 b3 b4 b5 b6 b7 b8 b9 : Bool,
      (((if b1 then 1 else 0) |||
       (if b2 then 2 else 0) |||
       (if b3 then 4 else 0) |||
       (if b4 then 8 else 0) |||
       (if b5 then 16 else 0) |||
       (if b6 then 32 else 0) |||
       (if b7 then 256 else 0) |||
       (if b8 then 128 else 0) |||
       (if b9 then 64 else 0) : Nat) &&&
        2) = if b2 then 2 else 0 := by decide
  exact key m.isOn.isSome m.brightness.isSome m.colorTemp.isSome m.colorXY.isSome
    m.transitionTime.isSome m.effect.isSome m.gradient.isSome m.effectSpeed.isSome
    m.gradientParams.isSome

/-- Extracting the `colorTemp` flag bit from the encoded flag word. -/
theorem encFlags_and_mired (m : HueLightUpdateMessage) :
    encFlags m &&& FLAG_COLOR_MIRED = if m.colorTemp.isSome then FLAG_COLOR_MIRED else 0 := by
  have key : ∀ b1 b2 b3 b4 b5 b6 b7 b8 b9 : Bool,
      (((if b1 then 1 else 0) |||
       (if b2 then 2 else 0) |||
       (if b3 then 4 else 0) |||
       (if b4 then 8 else 0) |||
       (if b5 then 16 else 0) |||
       (if b6 then 32 else 0) |||
       (if b7 then 256 else 0) |||
       (if b8 then 128 else 0) |||
       (if b9 then 64 else 0) : Nat) &&&
        4) = if b3 then 4 else 0 := by decide
  exact key m.isOn.isSome m.brightness.isSome m.colorTemp.isSome m.colorXY.isSome
    m.transitionTime.isSome m.effect.isSome m.gradient.isSome m.effectSpeed.isSome
    m.gradientParams.isSome

/-- Extracting the `colorXY` flag bit from the encoded flag word. -/
theorem encFlags_and_xy (m : HueLightUpdateMessage) :
    encFlags m &&& FLAG_COLOR_XY = if m.colorXY.isSome then FLAG_COLOR_XY else 0 := by
  have key : ∀ b1 b2 b3 b4 b5 b6 b7 b8 b9 : Bool,
      (((if b1 then 1 else 0) |||
       (if b2 then 2 else 0) |||
       (if b3 then 4 else 0) |||
       (if b4 then 8 else 0) |||
       (if b5 then 16 else 0) |||
       (if b6 then 32 else 0) |||
       (if b7 then 256 else 0) |||
       (if b8 then 128 else 0) |||
       (if b9 then 64 else 0) : Nat) &&&
        8) = if b4 then 8 else 0 := by decide
  exact key m.isOn.isSome m.brightness.isSome m.colorTemp.isSome m.colorXY.isSome
    m.transitionTime.isSome m.effect.isSome m.gradient.isSome m.effectSpeed.isSome
    m.gradientParams.isSome

/-- Extracting the `transitionTime` flag bit from the encoded flag word. -/
theorem encFlags_and_transition (m : HueLightUpdateMessage) :
    encFlags m &&& FLAG_TRANSITION_TIME = if m.transitionTime.isSome then FLAG_TRANSITION_TIME else 0 := by
  have key : ∀ b1 b2 b3 b4 b5 b6 b7 b8 b9 : Bool,
      (((if b1 then 1 else 0) |||
       (if b2 then 2 else 0) |||
       (if b3 then 4 else 0) |||
       (if b4 then 8 else 0) |||
       (if b5 then 16 else 0) |||
       (if b6 then 32 else 0) |||
       (if b7 then 256 else 0) |||
       (if b8 then 128 else 0) |||
       (if b9 then 64 else 0) : Nat) &&&
        16) = if b5 then 16 else 0 := by decide
  exact key m.isOn.isSome m.brightness.isSome m.colorTemp.isSome m.colorXY.isSome
    m.transitionTime.isSome m.effect.isSome m.gradient.isSome m.effectSpeed.isSome
    m.gradientParams.isSome

/-- Extracting the `effect` flag bit from the encoded flag word. -/
theorem encFlags_and_effect (m : HueLightUpdateMessage) :
    encFlags m &&& FLAG_EFFECT = if m.effect.isSome then FLAG_EFFECT else 0 := by
  have key : ∀ b1 b2 b3 b4 b5 b6 b7 b8 b9 : Bool,
      (((if b1 then 1 else 0) |||
       (if b2 then 2 else 0) |||
       (if b3 then 4 else 0) |||
       (if b4 then 8 else 0) |||
       (if b5 then 16 else 0) |||
       (if b6 then 32 else 0) |||
       (if b7 then 256 else 0) |||
       (if b8 then 128 else 0) |||
       (if b9 then 64 else 0) : Nat) &&&
        32) = if b6 then 32 else 0 := by decide
  exact key m.isOn.isSome m.brightness.isSome m.colorTemp.isSome m.colorXY.isSome
    m.transitionTime.isSome m.effect.isSome m.gradient.isSome m.effectSpeed.isSome
    m.gradientParams.isSome

/-- Extracting the `gradient` flag bit from the encoded flag word. -/
theorem encFlags_and_gradient (m : HueLightUpdateMessage) :
    encFlags m &&& FLAG_GRADIENT_COLORS = if m.gradient.isSome then FLAG_GRADIENT_COLORS else 0 := by
  have key : ∀ b1 b2 b3 b4 b5 b6 b7 b8 b9 : Bool,
      (((if b1 then 1 else 0) |||
       (if b2 then 2 else 0) |||
       (if b3 then 4 else 0) |||
       (if b4 then 8 else 0) |||
       (if b5 then 16 else 0) |||
       (if b6 then 32 else 0) |||
       (if b7 then 256 else 0) |||
       (if b8 then 128 else 0) |||
       (if b9 then 64 else 0) : Nat) &&&
        256) = if b7 then 256 else 0 := by decide
  exact key m.isOn.isSome m.brightness.isSome m.colorTemp.isSome m.colorXY.isSome
    m.transitionTime.isSome m.effect.isSome m.gradient.isSome m.effectSpeed.isSome
    m.gradientParams.isSome

/-- Extracting the `effectSpeed` flag bit from the encoded flag word. -/
theorem encFlags_and_speed (m : HueLightUpdateMessage) :
    encFlags m &&& FLAG_EFFECT_SPEED = if m.effectSpeed.isSome then FLAG_EFFECT_SPEED else 0 := by
  have key : ∀ b1 b2 b3 b4 b5 b6 b7 b8 b9 : Bool,
      (((if b1 then 1 else 0) |||
       (if b2 then 2 else 0) |||
       (if b3 then 4 else 0) |||
       (if b4 then 8 else 0) |||
       (if b5 then 16 else 0) |||
       (if b6 then 32 else 0) |||
       (if b7 then 256 else 0) |||
       (if b8 then 128 else 0) |||
       (if b9 then 64 else 0) : Nat) &&&
        128) = if b8 then 128 else 0 := by decide
  exact key m.isOn.isSome m.brightness.isSome m.colorTemp.isSome m.colorXY.isSome
    m.transitionTime.isSome m.effect.isSome m.gradient.isSome m.effectSpeed.isSome
    m.gradientParams.isSome

/-- Extracting the `gradientParams` flag bit from the encoded flag word. -/
theorem encFlags_and_params (m : HueLightUpdateMessage) :
    encFlags m &&& FLAG_GRADIENT_PARAMS = if m.gradientParams.isSome then FLAG_GRADIENT_PARAMS else 0 := by
  have key : ∀ b1 b2 b3 b4 b5 b6 b7 b8 b9 : Bool,
      (((if b1 then 1 else 0) |||
       (if b2 then 2 else 0) |||
       (if b3 then 4 else 0) |||
       (if b4 then 8 else 0) |||
       (if b5 then 16 else 0) |||
       (if b6 then 32 else 0) |||
       (if b7 then 256 else 0) |||
       (if b8 then 128 else 0) |||
       (if b9 then 64 else 0) : Nat) &&&
        64) = if b9 then 64 else 0 := by decide
  exact key m.isOn.isSome m.brightness.isSome m.colorTemp.isSome m.colorXY.isSome
    m.transitionTime.isSome m.effect.isSome m.gradient.isSome m.effectSpeed.isSome
    m.gradientParams.isSome

/-- Decoding the encoded `isOn` segment. -/
theorem dOnOff_seg (d : List Nat) (off : Nat) (msg : HueLightUpdateMessage)
    (flags : Nat) (o : Option Bool) (rest : List Nat)
    (hflag : flags &&& FLAG_ON_OFF = if o.isSome then FLAG_ON_OFF else 0)
    (hnone : msg.isOn = none)
    (hd : d.drop off = segIsOn o ++ rest) :
    dOnOff d flags (msg, off) =
      .ok ({ msg with isOn := o }, off + (segIsOn o).length) := by
  cases o with
  | none =>
    have hf0 : flags &&& FLAG_ON_OFF = 0 := by simpa using hflag
    unfold dOnOff
    rw [if_neg (by simp [hf0])]
    have hupd : ({ msg with isOn := none } : HueLightUpdateMessage) = msg :=
      msg_ext hnone.symm rfl rfl rfl rfl rfl rfl rfl rfl
    rw [hupd]
    simp [segIsOn]
  | some v =>
    have hfne : flags &&& FLAG_ON_OFF ≠ 0 := by
      rw [hflag]
      simp [FLAG_ON_OFF]
    unfold dOnOff
    rw [if_pos hfne]
    have hread : getU8 d off = .ok (if v then 1 else 0) := by
      have h := getU8_drop_eq d off 0
      rw [Nat.add_zero] at h
      rw [h, hd]
      exact getU8_cons _ _
    rw [hread, ok_bind]
    have hval : ((if v then (1 : Nat) else 0) != 0) = v := by cases v <;> decide
    rw [hval]
    simp [segIsOn]

/-- Decoding the encoded `brightness` segment. -/
theorem dBrightness_seg (d : List Nat) (off : Nat) (msg : HueLightUpdateMessage)
    (flags : Nat) (o : Option Nat) (rest : List Nat)
    (hflag : flags &&& FLAG_BRIGHTNESS = if o.isSome then FLAG_BRIGHTNESS else 0)
    (hnone : msg.brightness = none)
    (hd : d.drop off = segBrightness o ++ rest) :
    dBrightness d flags (msg, off) =
      .ok ({ msg with brightness := o }, off + (segBrightness o).length) := by
  cases o with
  | none =>
    have hf0 : flags &&& FLAG_BRIGHTNESS = 0 := by simpa using hflag
    unfold dBrightness
    rw [if_neg (by simp [hf0])]
    have hupd : ({ msg with brightness := none } : HueLightUpdateMessage) = msg :=
      msg_ext rfl hnone.symm rfl rfl rfl rfl rfl rfl rfl
    rw [hupd]
    simp [segBrightness]
  | some b =>
    have hfne : flags &&& FLAG_BRIGHTNESS ≠ 0 := by
      rw [hflag]
      simp [FLAG_BRIGHTNESS]
    unfold dBrightness
    rw [if_pos hfne]
    have hread : getU8 d off = .ok b := by
      have h := getU8_drop_eq d off 0
      rw [Nat.add_zero] at h
      rw [h, hd]
      exact getU8_cons _ _
    rw [hread, ok_bind]
    simp [segBrightness]

/-- Decoding the encoded `colorTemp` segment: bit-exact for 16-bit mired
values. -/
theorem dMired_seg (d : List Nat) (off : Nat) (msg : HueLightUpdateMessage)
    (flags : Nat) (o : Option HueLightColorMired) (rest : List Nat)
    (hflag : flags &&& FLAG_COLOR_MIRED = if o.isSome then FLAG_COLOR_MIRED else 0)
    (hnone : msg.colorTemp = none)
    (hwf : OptAll (fun ct => ct.mired ≤ 65535) o)
    (hd : d.drop off = segMired o ++ rest) :
    dMired d flags (msg, off) =
      .ok ({ msg with colorTemp := o }, off + (segMired o).length) := by
  cases o with
  | none =>
    have hf0 : flags &&& FLAG_COLOR_MIRED = 0 := by simpa using hflag
    unfold dMired
    rw [if_neg (by simp [hf0])]
    have hupd : ({ msg with colorTemp := none } : HueLightUpdateMessage) = msg :=
      msg_ext rfl rfl hnone.symm rfl rfl rfl rfl rfl rfl
    rw [hupd]
    simp [segMired]
  | some ct =>
    have hfne : flags &&& FLAG_COLOR_MIRED ≠ 0 := by
      rw [hflag]
      simp [FLAG_COLOR_MIRED]
    unfold dMired
    rw [if_pos hfne]
    have hlt : ct.mired < 65536 := by
      have := hwf
      simp [OptAll] at this
      omega
    have hread : getU16 d off = .ok ct.mired := by
      have h := getU16_drop_eq d off 0
      rw [Nat.add_zero] at h
      rw [h, hd]
      exact getU16_u16le ct.mired hlt rest
    rw [hread, ok_bind]
    simp [segMired, u16le]

/-- Decoding the encoded `transitionTime` segment: bit-exact for 16-bit
values. -/
theorem dTransition_seg (d : List Nat) (off : Nat) (msg : HueLightUpdateMessage)
    (flags : Nat) (o : Option Nat) (rest : List Nat)
    (hflag : flags &&& FLAG_TRANSITION_TIME =
      if o.isSome then FLAG_TRANSITION_TIME else 0)
    (hnone : msg.transitionTime = none)
    (hwf : OptAll (fun t => t ≤ 65535) o)
    (hd : d.drop off = segTransition o ++ rest) :
    dTransition d flags (msg, off) =
      .ok ({ msg with transitionTime := o }, off + (segTransition o).length) := by
  cases o with
  | none =>
    have hf0 : flags &&& FLAG_TRANSITION_TIME = 0 := by simpa using hflag
    unfold dTransition
    rw [if_neg (by simp [hf0])]
    have hupd : ({ msg with transitionTime := none } : HueLightUpdateMessage) = msg :=
      msg_ext rfl rfl rfl rfl hnone.symm rfl rfl rfl rfl
    rw [hupd]
    simp [segTransition]
  | some t =>
    have hfne : flags &&& FLAG_TRANSITION_TIME ≠ 0 := by
      rw [hflag]
      simp [FLAG_TRANSITION_TIME]
    unfold dTransition
    rw [if_pos hfne]
    have hlt : t < 65536 := by
      have := hwf
      simp [OptAll] at this
      omega
    have hread : getU16 d off = .ok t := by
      have h := getU16_drop_eq d off 0
      rw [Nat.add_zero] at h
      rw [h, hd]
      exact getU16_u16le t hlt rest
    rw [hread, ok_bind]
    simp [segTransition, u16le]

/-- Decoding the encoded `effect` segment: the raw byte is the effect code
for codes up to 255. -/
theorem dEffect_seg (d : List Nat) (off : Nat) (msg : HueLightUpdateMessage)
    (flags : Nat) (o : Option Nat) (rest : List Nat)
    (hflag : flags &&& FLAG_EFFECT = if o.isSome then FLAG_EFFECT else 0)
    (hnone : msg.effect = none)
    (hwf : OptAll (fun e => e ≤ 255) o)
    (hd : d.drop off = segEffect o ++ rest) :
    dEffect d flags (msg, off) =
      .ok ({ msg with effect := o }, off + (segEffect o).length) := by
  cases o with
  | none =>
    have hf0 : flags &&& FLAG_EFFECT = 0 := by simpa using hflag
    unfold dEffect
    rw [if_neg (by simp [hf0])]
    have hupd : ({ msg with effect := none } : HueLightUpdateMessage) = msg :=
      msg_ext rfl rfl rfl rfl rfl hnone.symm rfl rfl rfl
    rw [hupd]
    simp [segEffect]
  | some e =>
    have hfne : flags &&& FLAG_EFFECT ≠ 0 := by
      rw [hflag]
      simp [FLAG_EFFECT]
    unfold dEffect
    rw [if_pos hfne]
    have hread : getU8 d off = .ok (e % 256) := by
      have h := getU8_drop_eq d off 0
      rw [Nat.add_zero] at h
      rw [h, hd]
      exact getU8_cons _ _
    rw [hread, ok_bind]
    have hmod : e % 256 = e := by
      have := hwf
      simp [OptAll] at this
      omega
    rw [hmod]
    simp [segEffect]

/-- Decoding the encoded `effectSpeed` segment. -/
theorem dSpeed_seg (d : List Nat) (off : Nat) (msg : HueLightUpdateMessage)
    (flags : Nat) (o : Option Nat) (rest : List Nat)
    (hflag : flags &&& FLAG_EFFECT_SPEED = if o.isSome then FLAG_EFFECT_SPEED else 0)
    (hnone : msg.effectSpeed = none)
    (hwf : OptAll (fun s => s ≤ 255) o)
    (hd : d.drop off = segSpeed o ++ rest) :
    dSpeed d flags (msg, off) =
      .ok ({ msg with effectSpeed := o }, off + (segSpeed o).length) := by
  cases o with
  | none =>
    have hf0 : flags &&& FLAG_EFFECT_SPEED = 0 := by simpa using hflag
    unfold dSpeed
    rw [if_neg (by simp [hf0])]
    have hupd : ({ msg with effectSpeed := none } : HueLightUpdateMessage) = msg :=
      msg_ext rfl rfl rfl rfl rfl rfl hnone.symm rfl rfl
    rw [hupd]
    simp [segSpeed]
  | some s =>
    have hfne : flags &&& FLAG_EFFECT_SPEED ≠ 0 := by
      rw [hflag]
      simp [FLAG_EFFECT_SPEED]
    unfold dSpeed
    rw [if_pos hfne]
    have hread : getU8 d off = .ok (s % 256) := by
      have h := getU8_drop_eq d off 0
      rw [Nat.add_zero] at h
      rw [h, hd]
      exact getU8_cons _ _
    rw [hread, ok_bind]
    have hmod : s % 256 = s := by
      have := hwf
      simp [OptAll] at this
      omega
    rw [hmod]
    simp [segSpeed]

/-- Decoding the encoded `colorXY` segment: the coordinates come back
quantized to 1/0xffff. -/
theorem dXY_seg (d : List Nat) (off : Nat) (msg : HueLightUpdateMessage)
    (flags : Nat) (o : Option HueLightColorXY) (rest : List Nat)
    (hflag : flags &&& FLAG_COLOR_XY = if o.isSome then FLAG_COLOR_XY else 0)
    (hnone : msg.colorXY = none)
    (hd : d.drop off = segXY o ++ rest) :
    dXY d flags (msg, off) =
      .ok ({ msg with colorXY := o.map quantXY }, off + (segXY o).length) := by
  cases o with
  | none =>
    have hf0 : flags &&& FLAG_COLOR_XY = 0 := by simpa using hflag
    unfold dXY
    rw [if_neg (by simp [hf0])]
    have hupd : ({ msg with colorXY := Option.map quantXY none } :
        HueLightUpdateMessage) = msg :=
      msg_ext rfl rfl rfl hnone.symm rfl rfl rfl rfl rfl
    rw [hupd]
    simp [segXY]
  | some c =>
    have hfne : flags &&& FLAG_COLOR_XY ≠ 0 := by
      rw [hflag]
      simp [FLAG_COLOR_XY]
    unfold dXY
    rw [if_pos hfne]
    have hd' : d.drop off = u16le (jsU16 (c.x * 0xffff)) ++
        (u16le (jsU16 (c.y * 0xffff)) ++ rest) := by
      rw [hd]
      simp [segXY, List.append_assoc]
    have hread1 : getU16 d off = .ok (jsU16 (c.x * 0xffff)) := by
      have h := getU16_drop_eq d off 0
      rw [Nat.add_zero] at h
      rw [h, hd']
      exact getU16_u16le _ (jsU16_lt _) _
    have hd2 : d.drop (off + 2) = u16le (jsU16 (c.y * 0xffff)) ++ rest := by
      rw [← List.drop_drop, hd']
      rfl
    have hread2 : getU16 d (off + 2) = .ok (jsU16 (c.y * 0xffff)) := by
      have h := getU16_drop_eq d (off + 2) 0
      rw [Nat.add_zero] at h
      rw [h, hd2]
      exact getU16_u16le _ (jsU16_lt _) _
    rw [hread1, ok_bind, hread2, ok_bind]
    simp [segXY, u16le, quantXY]

/-- Decoding the encoded `gradientParams` segment: bit-exact for values on
the 1/8 grid. -/
theorem dParams_seg (d : List Nat) (off : Nat) (msg : HueLightUpdateMessage)
    (flags : Nat) (o : Option HueLightGradientParams) (rest : List Nat)
    (hflag : flags &&& FLAG_GRADIENT_PARAMS =
      if o.isSome then FLAG_GRADIENT_PARAMS else 0)
    (hnone : msg.gradientParams = none)
    (hwf : OptAll (fun p => (∃ k : Fin 256, p.scale = (k : ℚ) / 8) ∧
      (∃ k : Fin 256, p.offset = (k : ℚ) / 8)) o)
    (hd : d.drop off = segParams o ++ rest) :
    dParams d flags (msg, off) =
      .ok ({ msg with gradientParams := o }, off + (segParams o).length) := by
  cases o with
  | none =>
    have hf0 : flags &&& FLAG_GRADIENT_PARAMS = 0 := by simpa using hflag
    unfold dParams
    rw [if_neg (by simp [hf0])]
    have hupd : ({ msg with gradientParams := none } : HueLightUpdateMessage) = msg :=
      msg_ext rfl rfl rfl rfl rfl rfl rfl rfl hnone.symm
    rw [hupd]
    simp [segParams]
  | some p =>
    have hfne : flags &&& FLAG_GRADIENT_PARAMS ≠ 0 := by
      rw [hflag]
      simp [FLAG_GRADIENT_PARAMS]
    unfold dParams
    rw [if_pos hfne]
    obtain ⟨⟨k, hk⟩, ⟨j, hj⟩⟩ := hwf
    have hread1 : getU8 d off = .ok (jsU8 (p.scale * 8)) := by
      have h := getU8_drop_eq d off 0
      rw [Nat.add_zero] at h
      rw [h, hd]
      exact getU8_cons _ _
    have hread2 : getU8 d (off + 1) = .ok (jsU8 (p.offset * 8)) := by
      have h := getU8_drop_eq d off 1
      rw [h, hd]
      exact getU8_cons1 _ _ _
    rw [hread1, ok_bind, hread2, ok_bind]
    have hs : jsU8 (p.scale * 8) = (k : Nat) := by
      rw [hk]
      exact jsU8_eighth k k.isLt
    have ho : jsU8 (p.offset * 8) = (j : Nat) := by
      rw [hj]
      exact jsU8_eighth j j.isLt
    rw [hs, ho]
    have hps : ((k : Nat) : ℚ) / 8 = p.scale := by rw [hk]
    have hpo : ((j : Nat) : ℚ) / 8 = p.offset := by rw [hj]
    rw [hps, hpo]
    simp [segParams]

/-- Reading the third byte of a buffer. -/
theorem getU8_cons2 (a b c : Nat) (l : List Nat) :
    getU8 (a :: b :: c :: l) 2 = .ok c := by
  simp [getU8]

/-- Decoding the packed colors of an encoded gradient block: each color
comes back through the scaled representation. -/
theorem readColors_encoded (d : List Nat) :
    ∀ (colors : List HueLightColorXY) (off : Nat) (rest : List Nat),
      d.drop off = (colors.map fun c => c.toScaled.toBytes).flatten ++ rest →
      readColors d off colors.length = .ok (colors.map quantColor) := by
  intro colors
  induction colors with
  | nil =>
    intro off rest hd
    simp [readColors]
  | cons c tl ih =>
    intro off rest hd
    rw [List.map_cons, List.flatten_cons, List.append_assoc] at hd
    have hd3 : d.drop (off + 3) =
        (tl.map fun c => c.toScaled.toBytes).flatten ++ rest := by
      rw [← List.drop_drop, hd]
      rfl
    show readColors d off (tl.length + 1) = _
    simp only [readColors]
    have hslice : (d.drop off).take 3 = c.toScaled.toBytes := by
      rw [hd]
      rfl
    rw [hslice,
      scaled_pack_unpack c.toScaled.x c.toScaled.y (toScaled_le c).1 (toScaled_le c).2,
      ok_bind, ih (off + 3) rest hd3, ok_bind]
    rfl

/-- Decoding the encoded gradient segment: style and color count are
bit-exact, colors come back quantized. -/
theorem dGradient_seg (d : List Nat) (off : Nat) (msg : HueLightUpdateMessage)
    (flags : Nat) (o : Option HueLightGradient) (rest : List Nat)
    (hflag : flags &&& FLAG_GRADIENT_COLORS =
      if o.isSome then FLAG_GRADIENT_COLORS else 0)
    (hnone : msg.gradient = none)
    (hwf : OptAll (fun g => g.style ≤ 255 ∧ g.colors.length ≤ 15) o)
    (hd : d.drop off = segGradient o ++ rest) :
    dGradient d flags (msg, off) =
      .ok ({ msg with gradient := o.map quantGradient },
        off + (segGradient o).length) := by
  cases o with
  | none =>
    have hf0 : flags &&& FLAG_GRADIENT_COLORS = 0 := by simpa using hflag
    unfold dGradient
    rw [if_neg (by simp [hf0])]
    have hupd : ({ msg with gradient := Option.map quantGradient none } :
        HueLightUpdateMessage) = msg :=
      msg_ext rfl rfl rfl rfl rfl rfl rfl hnone.symm rfl
    rw [hupd]
    simp [segGradient]
  | some g =>
    obtain ⟨hstyle, hlen15⟩ := hwf
    have hfne : flags &&& FLAG_GRADIENT_COLORS ≠ 0 := by
      rw [hflag]
      simp [FLAG_GRADIENT_COLORS]
    have hsz : (4 + 3 * g.colors.length) % 256 = 4 + 3 * g.colors.length :=
      Nat.mod_eq_of_lt (by omega)
    have hcnt : (g.colors.length <<< 4) % 256 = 16 * g.colors.length := by
      rw [Nat.shiftLeft_eq, show (2 : ℕ) ^ 4 = 16 from by norm_num]
      rw [Nat.mod_eq_of_lt (by omega)]
      omega
    have hsty : g.style % 256 = g.style := Nat.mod_eq_of_lt (by omega)
    have hd' : d.drop off = (4 + 3 * g.colors.length) % 256 ::
        (g.colors.length <<< 4) % 256 :: g.style % 256 :: 0 :: 0 ::
        ((g.colors.map fun c => c.toScaled.toBytes).flatten ++ rest) := by
      rw [hd]
      rfl
    rw [hsz, hcnt, hsty] at hd'
    have hdl : (d.drop off).length =
        5 + (3 * g.colors.length + rest.length) := by
      rw [hd']
      simp only [List.length_cons, List.length_append, flatten_colors_length]
      omega
    rw [List.length_drop] at hdl
    have hoff : off < d.length := by omega
    have hlen : d.length = off + 5 + 3 * g.colors.length + rest.length := by
      omega
    unfold dGradient
    rw [if_pos hfne]
    have hread0 : getU8 d off = .ok (4 + 3 * g.colors.length) := by
      have h := getU8_drop_eq d off 0
      rw [Nat.add_zero] at h
      rw [h, hd']
      exact getU8_cons _ _
    have hread1 : getU8 d (off + 1) = .ok (16 * g.colors.length) := by
      have h := getU8_drop_eq d off 1
      rw [h, hd']
      exact getU8_cons1 _ _ _
    have hread2 : getU8 d (off + 2) = .ok g.style := by
      have h := getU8_drop_eq d off 2
      rw [h, hd']
      exact getU8_cons2 _ _ _ _
    rw [hread0, ok_bind]
    rw [if_neg (by omega : ¬4 + 3 * g.colors.length < 4)]
    rw [if_neg (by omega : ¬off + (4 + 3 * g.colors.length) + 1 > d.length)]
    rw [hread1, ok_bind, hread2, ok_bind]
    have hshift : (16 * g.colors.length) >>> 4 = g.colors.length := by
      rw [Nat.shiftRight_eq_div_pow, show (2 : ℕ) ^ 4 = 16 from by norm_num]
      omega
    rw [hshift]
    rw [if_neg (by omega :
      ¬off + 5 + g.colors.length * 3 > off + (4 + 3 * g.colors.length) + 1)]
    have hd5 : d.drop (off + 5) =
        (g.colors.map fun c => c.toScaled.toBytes).flatten ++ rest := by
      rw [← List.drop_drop, hd']
      rfl
    rw [readColors_encoded d g.colors (off + 5) rest hd5, ok_bind]
    have hseg : (segGradient (some g)).length = 5 + 3 * g.colors.length := by
      rw [segGradient_length]
    have harith : off + (4 + 3 * g.colors.length) + 1 =
        off + (segGradient (some g)).length := by
      rw [hseg]
      omega
    rw [harith]
    rfl

/-! ## Claim C1: the encode/decode round trip -/

/-- Advancing the cursor past a recognized segment. -/
theorem drop_seg_step {D seg rest : List Nat} {off : Nat}
    (h : D.drop off = seg ++ rest) : D.drop (off + seg.length) = rest := by
  rw [← List.drop_drop, h, List.drop_left]

/-- A well-formed brightness passes the encoder's range check. -/
theorem brightnessBad_of_wf (m : HueLightUpdateMessage)
    (h : OptAll (fun b => 1 ≤ b ∧ b ≤ 254) m.brightness) :
    brightnessBad m.brightness = false := by
  cases hb : m.brightness with
  | none => rfl
  | some b =>
    rw [hb] at h
    simp only [OptAll] at h
    simp [brightnessBad]
    omega

/-- Decoding the buffer produced by the encoder yields `decodedMsg`: every
field as set, unset fields unset, with colors quantized. -/
theorem fromBytes_msgBody (m : HueLightUpdateMessage) (hwf : WFmsg m) :
    HueLightUpdateMessage.fromBytes (u16le (encFlags m) ++ msgBody m) =
      .ok (decodedMsg m) := by
  obtain ⟨w1, w2, w3, w4, w5, w6, w7, w8⟩ := hwf
  have w7' : OptAll (fun g => g.style ≤ 255 ∧ g.colors.length ≤ 15) m.gradient := by
    cases hg : m.gradient with
    | none => trivial
    | some g =>
      rw [hg] at w7
      exact ⟨w7.1, w7.2.1⟩
  unfold HueLightUpdateMessage.fromBytes
  rw [getU16_u16le (encFlags m) (lt_trans (encFlags_lt m) (by norm_num))
    (msgBody m), ok_bind]
  have hd1 : (u16le (encFlags m) ++ msgBody m).drop 2 =
      segIsOn m.isOn ++ (segBrightness m.brightness ++ (segMired m.colorTemp ++
        (segXY m.colorXY ++ (segTransition m.transitionTime ++
          (segEffect m.effect ++ (segGradient m.gradient ++
            (segSpeed m.effectSpeed ++ segParams m.gradientParams))))))) := by
    show msgBody m = _
    simp [msgBody, List.append_assoc]
  rw [dOnOff_seg (u16le (encFlags m) ++ msgBody m) (2) ({} : HueLightUpdateMessage) (encFlags m) m.isOn _ (encFlags_and_onOff m) rfl hd1]
  rw [ok_bind]
  have hd2 := drop_seg_step hd1
  rw [dBrightness_seg (u16le (encFlags m) ++ msgBody m) (2 + (segIsOn m.isOn).length) ({ isOn := m.isOn } : HueLightUpdateMessage) (encFlags m) m.brightness _ (encFlags_and_brightness m) rfl hd2]
  rw [ok_bind]
  have hd3 := drop_seg_step hd2
  rw [dMired_seg (u16le (encFlags m) ++ msgBody m) (2 + (segIsOn m.isOn).length + (segBrightness m.brightness).length) ({ isOn := m.isOn, brightness := m.brightness } : HueLightUpdateMessage) (encFlags m) m.colorTemp _ (encFlags_and_mired m) rfl w2 hd3]
  rw [ok_bind]
  have hd4 := drop_seg_step hd3
  rw [dXY_seg (u16le (encFlags m) ++ msgBody m) (2 + (segIsOn m.isOn).length + (segBrightness m.brightness).length + (segMired m.colorTemp).length) ({ isOn := m.isOn, brightness := m.brightness, colorTemp := m.colorTemp } : HueLightUpdateMessage) (encFlags m) m.colorXY _ (encFlags_and_xy m) rfl hd4]
  rw [ok_bind]
  have hd5 := drop_seg_step hd4
  rw [dTransition_seg (u16le (encFlags m) ++ msgBody m) (2 + (segIsOn m.isOn).length + (segBrightness m.brightness).length + (segMired m.colorTemp).length + (segXY m.colorXY).length) ({ isOn := m.isOn, brightness := m.brightness, colorTemp := m.colorTemp, colorXY := Option.map quantXY m.colorXY } : HueLightUpdateMessage) (encFlags m) m.transitionTime _ (encFlags_and_transition m) rfl w4 hd5]
  rw [ok_bind]
  have hd6 := drop_seg_step hd5
  rw [dEffect_seg (u16le (encFlags m) ++ msgBody m) (2 + (segIsOn m.isOn).length + (segBrightness m.brightness).length + (segMired m.colorTemp).length + (segXY m.colorXY).length + (segTransition m.transitionTime).length) ({ isOn := m.isOn, brightness := m.brightness, colorTemp := m.colorTemp, colorXY := Option.map quantXY m.colorXY, transitionTime := m.transitionTime } : HueLightUpdateMessage) (encFlags m) m.effect _ (encFlags_and_effect m) rfl w5 hd6]
  rw [ok_bind]
  have hd7 := drop_seg_step hd6
  rw [dGradient_seg (u16le (encFlags m) ++ msgBody m) (2 + (segIsOn m.isOn).length + (segBrightness m.brightness).length + (segMired m.colorTemp).length + (segXY m.colorXY).length + (segTransition m.transitionTime).length + (segEffect m.effect).length) ({ isOn := m.isOn, brightness := m.brightness, colorTemp := m.colorTemp, colorXY := Option.map quantXY m.colorXY, transitionTime := m.transitionTime, effect := m.effect } : HueLightUpdateMessage) (encFlags m) m.gradient _ (encFlags_and_gradient m) rfl w7' hd7]
  rw [ok_bind]
  have hd8 := drop_seg_step hd7
  rw [dSpeed_seg (u16le (encFlags m) ++ msgBody m) (2 + (segIsOn m.isOn).length + (segBrightness m.brightness).length + (segMired m.colorTemp).length + (segXY m.colorXY).length + (segTransition m.transitionTime).length + (segEffect m.effect).length + (segGradient m.gradient).length) ({ isOn := m.isOn, brightness := m.brightness, colorTemp := m.colorTemp, colorXY := Option.map quantXY m.colorXY, transitionTime := m.transitionTime, effect := m.effect, gradient := Option.map quantGradient m.gradient } : HueLightUpdateMessage) (encFlags m) m.effectSpeed _ (encFlags_and_speed m) rfl w6 hd8]
  rw [ok_bind]
  have hd9 := drop_seg_step hd8
  have hd9' : (u16le (encFlags m) ++ msgBody m).drop (2 + (segIsOn m.isOn).length + (segBrightness m.brightness).length + (segMired m.colorTemp).length + (segXY m.colorXY).length + (segTransition m.transitionTime).length + (segEffect m.effect).length + (segGradient m.gradient).length + (segSpeed m.effectSpeed).length) = segParams m.gradientParams ++ [] := by
    rw [List.append_nil]
    exact hd9
  rw [dParams_seg (u16le (encFlags m) ++ msgBody m) (2 + (segIsOn m.isOn).length + (segBrightness m.brightness).length + (segMired m.colorTemp).length + (segXY m.colorXY).length + (segTransition m.transitionTime).length + (segEffect m.effect).length + (segGradient m.gradient).length + (segSpeed m.effectSpeed).length) ({ isOn := m.isOn, brightness := m.brightness, colorTemp := m.colorTemp, colorXY := Option.map quantXY m.colorXY, transitionTime := m.transitionTime, effect := m.effect, gradient := Option.map quantGradient m.gradient, effectSpeed := m.effectSpeed } : HueLightUpdateMessage) (encFlags m) m.gradientParams [] (encFlags_and_params m) rfl w8 hd9']
  rw [ok_bind]
  rfl

/-- C1 counterexample: the message whose single gradient color is `(1, 0)` —
a legal normalized coordinate — encodes with the x coordinate clamped to the
scaled maximum, and decodes to x = 0.7347, off by 0.2653 from the original:
far beyond the claimed `1/4095 × SCALING_MAX_X` tolerance. -/
theorem roundTrip_gradient_clamp_cex :
    HueLightUpdateMessage.toBytes clampedGradientMessage =
      .ok [0, 1, 7, 16, 0, 0, 0, 255, 15, 0] ∧
    HueLightUpdateMessage.fromBytes [0, 1, 7, 16, 0, 0, 0, 255, 15, 0] =
      .ok { gradient := some ⟨0, [⟨7347 / 10000, 0⟩]⟩ } ∧
    ¬(|(7347 / 10000 : ℚ) - 1| ≤ SCALING_MAX_X / 4095) := by
  refine ⟨by with_unfolding_all rfl, by with_unfolding_all rfl, ?_⟩
  intro h
  rw [abs_of_nonpos (by norm_num)] at h
  rw [SCALING_MAX_X] at h
  norm_num at h

/-- C1 (amended): for every message whose fields lie in their documented
ranges and whose gradient colors do not exceed the scaled axis maxima,
encoding succeeds and decoding the result reproduces every set field and
leaves every unset field unset — bit-exact for isOn, brightness, mired,
transition time, effect, effect speed, gradient params (and gradient style
and color count inside `gradClose`) — while each colorXY and gradient color
coordinate is recovered within `1/4095 ×` its axis maximum. -/
theorem fromBytes_toBytes_roundTrip (m : HueLightUpdateMessage) (hwf : WFmsg m) :
    ∃ out m', m.toBytes = .ok out ∧
      HueLightUpdateMessage.fromBytes out = .ok m' ∧
      m'.isOn = m.isOn ∧ m'.brightness = m.brightness ∧
      m'.colorTemp = m.colorTemp ∧ m'.transitionTime = m.transitionTime ∧
      m'.effect = m.effect ∧ m'.effectSpeed = m.effectSpeed ∧
      m'.gradientParams = m.gradientParams ∧
      OptRel xyClose m.colorXY m'.colorXY ∧
      OptRel gradClose m.gradient m'.gradient := by
  refine ⟨u16le (encFlags m) ++ msgBody m, decodedMsg m,
    toBytes_eq m (brightnessBad_of_wf m hwf.1), fromBytes_msgBody m hwf,
    rfl, rfl, rfl, rfl, rfl, rfl, rfl, ?_, ?_⟩
  · show OptRel xyClose m.colorXY (m.colorXY.map quantXY)
    cases hc : m.colorXY with
    | none => trivial
    | some c =>
      have w3 := hwf.2.2.1
      rw [hc] at w3
      obtain ⟨hx0, hx1, hy0, hy1⟩ := w3
      show xyClose c (quantXY c)
      obtain ⟨ha1, ha2, -⟩ := quant_xy_axis c.x hx0 hx1
      obtain ⟨hb1, hb2, -⟩ := quant_xy_axis c.y hy0 hy1
      have hcx : (1 : ℚ) / 65535 ≤ SCALING_MAX_X / 4095 := by
        rw [SCALING_MAX_X]
        norm_num
      have hcy : (1 : ℚ) / 65535 ≤ SCALING_MAX_Y / 4095 := by
        rw [SCALING_MAX_Y]
        norm_num
      constructor
      · show |(jsU16 (c.x * 0xffff) : ℚ) / 0xffff - c.x| ≤ SCALING_MAX_X / 4095
        exact abs_le.mpr ⟨by linarith, by linarith⟩
      · show |(jsU16 (c.y * 0xffff) : ℚ) / 0xffff - c.y| ≤ SCALING_MAX_Y / 4095
        exact abs_le.mpr ⟨by linarith, by linarith⟩
  · show OptRel gradClose m.gradient (m.gradient.map quantGradient)
    cases hg : m.gradient with
    | none => trivial
    | some g =>
      have w7 := hwf.2.2.2.2.2.2.1
      rw [hg] at w7
      obtain ⟨hsty, hlen, hcols⟩ := w7
      show gradClose g (quantGradient g)
      refine ⟨rfl, by simp [quantGradient], ?_⟩
      show List.Forall₂ xyClose g.colors (g.colors.map quantColor)
      rw [List.forall₂_map_right_iff]
      rw [List.forall₂_same]
      intro c hcmem
      obtain ⟨hx0, hx1, hy0, hy1⟩ := hcols c hcmem
      have hMx : (0 : ℚ) < SCALING_MAX_X := by
        rw [SCALING_MAX_X]
        norm_num
      have hMy : (0 : ℚ) < SCALING_MAX_Y := by
        rw [SCALING_MAX_Y]
        norm_num
      obtain ⟨ha1, ha2⟩ := quant_axis c.x SCALING_MAX_X hMx hx0 hx1
      obtain ⟨hb1, hb2⟩ := quant_axis c.y SCALING_MAX_Y hMy hy0 hy1
      constructor
      · show |((jsTrunc (0xfff * max 0 (min (c.x / SCALING_MAX_X) 1))).toNat : ℚ) /
            0xfff * SCALING_MAX_X - c.x| ≤ SCALING_MAX_X / 4095
        have hd4 : SCALING_MAX_X / 4095 > 0 := by positivity
        exact abs_le.mpr ⟨by linarith, by linarith⟩
      · show |((jsTrunc (0xfff * max 0 (min (c.y / SCALING_MAX_Y) 1))).toNat : ℚ) /
            0xfff * SCALING_MAX_Y - c.y| ≤ SCALING_MAX_Y / 4095
        have hd4 : SCALING_MAX_Y / 4095 > 0 := by positivity
        exact abs_le.mpr ⟨by linarith, by linarith⟩

/-- Witness for C1 (amended) on a message exercising all nine fields. -/
theorem fromBytes_toBytes_roundTrip_witness :
    WFmsg fullMessage ∧
    (∃ out m', fullMessage.toBytes = .ok out ∧
      HueLightUpdateMessage.fromBytes out = .ok m' ∧
      m'.isOn = fullMessage.isOn ∧ m'.brightness = fullMessage.brightness ∧
      m'.colorTemp = fullMessage.colorTemp ∧
      m'.transitionTime = fullMessage.transitionTime ∧
      m'.effect = fullMessage.effect ∧ m'.effectSpeed = fullMessage.effectSpeed ∧
      m'.gradientParams = fullMessage.gradientParams ∧
      OptRel xyClose fullMessage.colorXY m'.colorXY ∧
      OptRel gradClose fullMessage.gradient m'.gradient) := by
  have h : WFmsg fullMessage := by with_unfolding_all decide
  exact ⟨h, fromBytes_toBytes_roundTrip fullMessage h⟩
